import Mathlib

/-!
# Dashboard client of go-grafana-api (`dashboard.go`)

A shallow embedding of `dashboard.go`: the dashboard data model, the two pure
helpers (`FrontendURL`, `GetPanelFromDashboard`) and the six HTTP operations
(`SaveDashboard`, `NewDashboard`, `SearchDashboard`, `GetDashboard`,
`Dashboard`, `DeleteDashboard`).

Conventions of the embedding.

* A Go `int64` / `int` is an `Int`; no arithmetic is performed on them here, and
  the JSON decoder checks the `int64` range where it stores a number.
* A Go `error` is an `Option Error` (`none` is the nil error).
* A Go pointer result `*T` is an `Option T` (`none` is the nil pointer).
* A Go slice result whose nil-ness is observable is an `Option (List T)`
  (`none` is the nil slice, `some []` the empty non-nil slice).
* A call that can end in a run-time panic (nil dereference) returns `Go α`.
-/

set_option autoImplicit false

namespace Gapi

/-! ## Errors -/

/-- Go `error` values, told apart by how they were made. -/
inductive Error where
  /-- An error built from a text, by `errors.New(text)` or `fmt.Errorf`;
  its `Error()` message is `text`. -/
  | text (message : String)
  /-- The `*json.SyntaxError` of `json.Unmarshal` on input that is not well-formed JSON. -/
  | jsonMalformed
  /-- The `*json.UnmarshalTypeError` of `json.Unmarshal`: a JSON value described
  by `value` met a Go target of type `goType` that cannot hold it. -/
  | jsonType (value : String) (goType : String)
  /-- Any error produced outside this file (request construction, transport,
  reading the body, `json.Marshal`), identified by a tag. -/
  | external (tag : String)
  deriving DecidableEq, Repr

/-- Outcome of a Go call that may panic at run time. -/
inductive Go (α : Type) where
  /-- The call returned. -/
  | ret (result : α)
  /-- The call ended in a run-time panic (here: a nil pointer dereference). -/
  | panic
  deriving DecidableEq, Repr

/-! ## JSON values -/

/-- A well-formed JSON text, as the scanner of `encoding/json` sees it. A
number keeps its literal, because the decoder converts the literal itself. -/
inductive Json where
  | null
  | bool (b : Bool)
  | num (literal : String)
  | str (s : String)
  | arr (elems : List Json)
  | obj (members : List (String × Json))
  deriving Repr

/-- A Go `interface{}` after decoding: nil, or the generic image of a JSON value. -/
abbrev Any := Option Json

/-! ## Data model (`dashboard.go`, lines 14-139) -/

structure DashboardMeta where
  UID : String
  Title : String
  IsStarred : Bool
  Slug : String
  Folder : Int
  FolderTitle : String
  deriving DecidableEq, Repr

/-- DashboardSaveResponse grafana response for create dashboard. -/
structure DashboardSaveResponse where
  Slug : String
  ID : Int
  UID : String
  URL : String
  Status : String
  Version : Int
  deriving DecidableEq, Repr

/-- Dashboards represent json returned by search API. -/
structure Dashboards where
  ID : Int
  UID : String
  Title : String
  URI : String
  URL : String
  Starred : Bool
  FolderID : Int
  FolderUID : String
  FolderTitle : String
  deriving DecidableEq, Repr

structure Link where
  Title : String
  URL : String
  deriving DecidableEq, Repr

structure DashboardAnnotation where
  BuiltIn : Int
  Datasource : String
  Enable : Bool
  Hide : Bool
  IconColor : String
  Name : String
  Type_ : String
  deriving DecidableEq, Repr

/-- The anonymous struct `Templating.List[i].Current`. -/
structure TemplatingCurrent where
  Text : String
  Value : String
  deriving DecidableEq, Repr

/-- The anonymous struct `Templating.List[i].Options[j]`. -/
structure TemplatingOption where
  Selected : Bool
  Text : String
  Value : String
  deriving DecidableEq, Repr

/-- The anonymous struct `Templating.List[i]`. -/
structure TemplatingEntry where
  AllValue : Any
  Current : TemplatingCurrent
  Hide : Int
  IncludeAll : Bool
  Label : Any
  Multi : Bool
  Name : String
  Options : List TemplatingOption
  Query : String
  SkipURLSync : Bool
  Type_ : String
  deriving Repr

/-- The anonymous struct `Annotations` of `DashboardModel`. -/
structure ModelAnnotations where
  List_ : List DashboardAnnotation
  deriving Repr

/-- The anonymous struct `Templating` of `DashboardModel`. -/
structure ModelTemplating where
  List_ : List TemplatingEntry
  deriving Repr

/-- The anonymous struct `Timepicker` of `DashboardModel`. -/
structure ModelTimepicker where
  RefreshIntervals : List String
  deriving Repr

/-- A dashboard panel. The type `DashboardPanel` is declared in another file of
the package; `dashboard.go` uses its field `ID` (compared with an `int64`) and
its zero value only, so the other fields are the parameter `ρ`. -/
structure DashboardPanel (ρ : Type) where
  ID : Int
  rest : ρ
  deriving DecidableEq, Repr

/-- The dashboard body. `TimeRange` is declared in another file of the package
and is the parameter `τ`. -/
structure DashboardModel (ρ τ : Type) where
  Annotations : ModelAnnotations
  Editable : Bool
  GnetID : Any
  GraphTooltip : Int
  ID : Int
  Iteration : Int
  Links : List Link
  Panels : List (DashboardPanel ρ)
  Refresh : Bool
  SchemaVersion : Int
  Style : String
  Tags : List Any
  Templating : ModelTemplating
  Time : τ
  Timepicker : ModelTimepicker
  Timezone : String
  Title : String
  UID : String
  Version : Int

structure Dashboard (ρ τ : Type) where
  Meta : DashboardMeta
  Model : DashboardModel ρ τ
  Folder : Int
  Overwrite : Bool

/-- DashboardDeleteResponse grafana response for delete dashboard. -/
structure DashboardDeleteResponse where
  Title : String
  deriving DecidableEq, Repr

/-! ## Zero values -/

/-- The Go zero value of a type declared outside this file. -/
class GoZero (α : Type) where
  zero : α

instance : GoZero Unit := ⟨()⟩

def DashboardMeta.zero : DashboardMeta := ⟨"", "", false, "", 0, ""⟩

def DashboardSaveResponse.zero : DashboardSaveResponse := ⟨"", 0, "", "", "", 0⟩

def Dashboards.zero : Dashboards := ⟨0, "", "", "", "", false, 0, "", ""⟩

def DashboardDeleteResponse.zero : DashboardDeleteResponse := ⟨""⟩

/-- The value of `DashboardPanel{}`. -/
def DashboardPanel.zero {ρ : Type} [GoZero ρ] : DashboardPanel ρ := ⟨0, GoZero.zero⟩

def DashboardModel.zero {ρ τ : Type} [GoZero τ] : DashboardModel ρ τ :=
  { Annotations := ⟨[]⟩, Editable := false, GnetID := none, GraphTooltip := 0, ID := 0,
    Iteration := 0, Links := [], Panels := [], Refresh := false, SchemaVersion := 0,
    Style := "", Tags := [], Templating := ⟨[]⟩, Time := GoZero.zero, Timepicker := ⟨[]⟩,
    Timezone := "", Title := "", UID := "", Version := 0 }

/-- The value of `Dashboard{}`. -/
def Dashboard.zero {ρ τ : Type} [GoZero τ] : Dashboard ρ τ :=
  { Meta := DashboardMeta.zero, Model := DashboardModel.zero, Folder := 0, Overwrite := false }

/-! ## `GetPanelFromDashboard` (lines 49-60) -/

/-- The `for _, panel := range d.Model.Panels` loop of `GetPanelFromDashboard`,
followed by the `// panel not found` return. -/
def GetPanelFromDashboard.loop {ρ : Type} [GoZero ρ] (panelID : Int) :
    List (DashboardPanel ρ) → DashboardPanel ρ × Option Error
  | [] => (DashboardPanel.zero, none)
  | panel :: panels =>
    if panel.ID = panelID then (panel, none) else GetPanelFromDashboard.loop panelID panels

/-- GetPanelFromDashboard Returns the Panel from a dashboard by given PanelID. -/
def Dashboard.GetPanelFromDashboard {ρ τ : Type} [GoZero ρ] (d : Dashboard ρ τ) (panelID : Int) :
    DashboardPanel ρ × Option Error :=
  GetPanelFromDashboard.loop panelID d.Model.Panels

/-! ## The syntax layer of `encoding/json`

`scanJSON` reads a JSON text (RFC 8259) into a `Json` value, with the nesting
limit of the scanner of `encoding/json`. The theorems below
that hold for every body use its result by cases only; its rules matter where
an instance is evaluated on a given text. -/

/-- JSON white space. -/
def isSpace (c : Char) : Bool := c = ' ' || c = '\t' || c = '\r' || c = '\n'

/-- Drop leading white space. -/
def skipSpace : List Char → List Char
  | [] => []
  | c :: cs => if isSpace c then skipSpace cs else c :: cs

/-- Value of a hexadecimal digit. -/
def hexDigit (c : Char) : Option Nat :=
  if '0' ≤ c ∧ c ≤ '9' then some (c.toNat - '0'.toNat)
  else if 'a' ≤ c ∧ c ≤ 'f' then some (c.toNat - 'a'.toNat + 10)
  else if 'A' ≤ c ∧ c ≤ 'F' then some (c.toNat - 'A'.toNat + 10)
  else none

/-- The code unit of a `\uXXXX` escape. -/
def getu4 (a b c d : Char) : Option Nat :=
  match hexDigit a, hexDigit b, hexDigit c, hexDigit d with
  | some x, some y, some z, some w => some (((x * 16 + y) * 16 + z) * 16 + w)
  | _, _, _, _ => none

/-- UTF-16 surrogate code units. -/
def isSurrogate (r : Nat) : Bool := 0xD800 ≤ r && r < 0xE000

/-- The code point of a valid surrogate pair. -/
def decodeRune (r1 r2 : Nat) : Option Nat :=
  if 0xD800 ≤ r1 ∧ r1 < 0xDC00 ∧ 0xDC00 ≤ r2 ∧ r2 < 0xE000 then
    some ((r1 - 0xD800) * 0x400 + (r2 - 0xDC00) + 0x10000)
  else none

/-- The rest of a string literal after its opening quote: the decoded text and
what follows the closing quote. A lone surrogate escape decodes to U+FFFD. The
first argument bounds the number of steps. -/
def scanString : Nat → List Char → List Char → Option (String × List Char)
  | 0, _, _ => none
  | _ + 1, [], _ => none
  | n + 1, c :: rest, acc =>
    if c = '"' then some (String.mk acc.reverse, rest)
    else if c = '\\' then
      match rest with
      | 'u' :: a :: b :: c :: d :: rest1 =>
        match getu4 a b c d with
        | none => none
        | some r =>
          if isSurrogate r then
            match rest1 with
            | '\\' :: 'u' :: a2 :: b2 :: c2 :: d2 :: rest2 =>
              match getu4 a2 b2 c2 d2 with
              | none => none
              | some r2 =>
                match decodeRune r r2 with
                | some dec => scanString n rest2 (Char.ofNat dec :: acc)
                | none => scanString n rest1 (Char.ofNat 0xFFFD :: acc)
            | _ => scanString n rest1 (Char.ofNat 0xFFFD :: acc)
          else scanString n rest1 (Char.ofNat r :: acc)
      | e :: rest1 =>
        if e = '"' ∨ e = '\\' ∨ e = '/' then scanString n rest1 (e :: acc)
        else if e = 'b' then scanString n rest1 (Char.ofNat 8 :: acc)
        else if e = 'f' then scanString n rest1 (Char.ofNat 12 :: acc)
        else if e = 'n' then scanString n rest1 ('\n' :: acc)
        else if e = 'r' then scanString n rest1 ('\r' :: acc)
        else if e = 't' then scanString n rest1 ('\t' :: acc)
        else none
      | [] => none
    else if c.toNat < 0x20 then none
    else scanString n rest (c :: acc)

/-- Decimal digits. -/
def isDigit (c : Char) : Bool := '0' ≤ c && c ≤ '9'

/-- The longest run of digits at the head of the input, and what follows it. -/
def spanDigits : List Char → List Char × List Char
  | [] => ([], [])
  | c :: cs => if isDigit c then ((spanDigits cs).1.cons c, (spanDigits cs).2) else ([], c :: cs)

/-- Integer part of a number: `0`, or a non-zero digit followed by digits. -/
def scanIntPart : List Char → Option (List Char × List Char)
  | [] => none
  | c :: cs =>
    if c = '0' then some (['0'], cs)
    else if isDigit c then some (c :: (spanDigits cs).1, (spanDigits cs).2)
    else none

/-- Optional fraction: `.` followed by at least one digit. -/
def scanFrac : List Char → Option (List Char × List Char)
  | '.' :: cs =>
    match spanDigits cs with
    | ([], _) => none
    | (ds, rest) => some ('.' :: ds, rest)
  | cs => some ([], cs)

/-- Optional exponent: `e` or `E`, an optional sign, at least one digit. -/
def scanExp : List Char → Option (List Char × List Char)
  | [] => some ([], [])
  | c :: cs =>
    if c = 'e' ∨ c = 'E' then
      match cs with
      | [] => none
      | s :: cs1 =>
        if s = '+' ∨ s = '-' then
          match spanDigits cs1 with
          | ([], _) => none
          | (ds, rest) => some (c :: s :: ds, rest)
        else
          match spanDigits (s :: cs1) with
          | ([], _) => none
          | (ds, rest) => some (c :: ds, rest)
    else some ([], c :: cs)

/-- A JSON number literal at the head of the input. -/
def scanNumber (cs : List Char) : Option (String × List Char) :=
  let (sign, cs0) := match cs with
    | '-' :: r => (['-'], r)
    | _ => ([], cs)
  match scanIntPart cs0 with
  | none => none
  | some (ip, cs1) =>
    match scanFrac cs1 with
    | none => none
    | some (fp, cs2) =>
      match scanExp cs2 with
      | none => none
      | some (ep, cs3) => some (String.mk (sign ++ ip ++ fp ++ ep), cs3)

/-- The deepest nesting of arrays and objects that the scanner of `encoding/json`
accepts (`maxNestingDepth`); deeper input is rejected as not well-formed
("exceeded max depth"). -/
def maxNestingDepth : Nat := 10000

mutual
/-- One JSON value, after optional white space. The first argument bounds the
number of steps, the second is the number of arrays and objects that enclose
the value. -/
def scanValue : Nat → Nat → List Char → Option (Json × List Char)
  | 0, _, _ => none
  | n + 1, depth, cs =>
    match skipSpace cs with
    | [] => none
    | 'n' :: 'u' :: 'l' :: 'l' :: rest => some (Json.null, rest)
    | 't' :: 'r' :: 'u' :: 'e' :: rest => some (Json.bool true, rest)
    | 'f' :: 'a' :: 'l' :: 's' :: 'e' :: rest => some (Json.bool false, rest)
    | c :: rest =>
      if c = '"' then
        match scanString (rest.length + 1) rest [] with
        | none => none
        | some (s, rest1) => some (Json.str s, rest1)
      else if c = '[' then
        if depth < maxNestingDepth then
          match skipSpace rest with
          | ']' :: rest1 => some (Json.arr [], rest1)
          | _ => scanElems n (depth + 1) rest []
        else none
      else if c = '\x7b' then
        if depth < maxNestingDepth then
          match skipSpace rest with
          | '\x7d' :: rest1 => some (Json.obj [], rest1)
          | _ => scanMembers n (depth + 1) rest []
        else none
      else
        match scanNumber (c :: rest) with
        | none => none
        | some (lit, rest1) => some (Json.num lit, rest1)
/-- The elements of an array after `[`, up to and including `]`; `depth` counts
the array itself. -/
def scanElems : Nat → Nat → List Char → List Json → Option (Json × List Char)
  | 0, _, _, _ => none
  | n + 1, depth, cs, acc =>
    match scanValue n depth cs with
    | none => none
    | some (v, rest) =>
      match skipSpace rest with
      | ',' :: rest1 => scanElems n depth rest1 (v :: acc)
      | ']' :: rest1 => some (Json.arr (v :: acc).reverse, rest1)
      | _ => none
/-- The members of an object after the opening brace, up to and including the
closing one; `depth` counts the object itself. -/
def scanMembers : Nat → Nat → List Char → List (String × Json) → Option (Json × List Char)
  | 0, _, _, _ => none
  | n + 1, depth, cs, acc =>
    match skipSpace cs with
    | '"' :: rest =>
      match scanString (rest.length + 1) rest [] with
      | none => none
      | some (k, rest1) =>
        match skipSpace rest1 with
        | ':' :: rest2 =>
          match scanValue n depth rest2 with
          | none => none
          | some (v, rest3) =>
            match skipSpace rest3 with
            | ',' :: rest4 => scanMembers n depth rest4 ((k, v) :: acc)
            | '\x7d' :: rest4 => some (Json.obj ((k, v) :: acc).reverse, rest4)
            | _ => none
        | _ => none
    | _ => none
end

/-- The syntax layer of `json.Unmarshal`: the value of a well-formed JSON text,
`none` for input that is not well-formed or is nested deeper than
`maxNestingDepth` (where `Unmarshal` returns a `*json.SyntaxError` before it
stores anything). -/
def scanJSON (data : String) : Option Json :=
  match scanValue (2 * data.length + 2) 0 data.data with
  | none => none
  | some (v, rest) => if (skipSpace rest).isEmpty then some v else none

/-! ## `json.Unmarshal`: storing a JSON value into a Go value

The rules of `encoding/json` used here: a JSON `null` leaves a string, bool,
number or struct target unchanged and sets a pointer or slice target to nil; a
JSON value that the target cannot hold is recorded as an
`UnmarshalTypeError` and skipped, decoding goes on, and the first recorded error
is returned at the end; object keys are matched to struct fields by name,
ignoring case; keys that match no field are skipped. -/

/-- Case folding of one character of an object key: ASCII upper case to lower
case, and the two non-ASCII characters that fold to ASCII letters (Kelvin sign
to `k`, long s to `s`). -/
def foldChar (c : Char) : Char :=
  if 'A' ≤ c ∧ c ≤ 'Z' then Char.ofNat (c.toNat + 32)
  else if c = Char.ofNat 0x212A then 'k'
  else if c = Char.ofNat 0x017F then 's'
  else c

/-- Case folding of an object key. -/
def foldName (s : String) : String := String.mk (s.data.map foldChar)

/-- Whether the object key `key` selects the struct field whose JSON name is `tag`. -/
def keyIs (key tag : String) : Bool := foldName key == foldName tag

/-- Value of a non-empty run of decimal digits. -/
def digitsValue : List Char → Nat → Option Nat
  | [], acc => some acc
  | c :: cs, acc => if isDigit c then digitsValue cs (acc * 10 + (c.toNat - '0'.toNat)) else none

/-- The result of `strconv.ParseInt(literal, 10, 64)` when it succeeds: an optional
sign, at least one digit, nothing else, and a value in the `int64` range. -/
def parseInt64 (literal : String) : Option Int :=
  let (neg, ds) := match literal.data with
    | '-' :: r => (true, r)
    | '+' :: r => (false, r)
    | r => (false, r)
  if ds.isEmpty then none
  else
    match digitsValue ds 0 with
    | none => none
    | some n =>
      let v : Int := if neg then -(n : Int) else (n : Int)
      if -(2 : Int) ^ 63 ≤ v ∧ v < (2 : Int) ^ 63 then some v else none

/-- Store a JSON value into a Go `string`. -/
def storeString (j : Json) (cur : String) : String × Option Error :=
  match j with
  | Json.str s => (s, none)
  | Json.null => (cur, none)
  | Json.bool _ => (cur, some (Error.jsonType "bool" "string"))
  | Json.num _ => (cur, some (Error.jsonType "number" "string"))
  | Json.arr _ => (cur, some (Error.jsonType "array" "string"))
  | Json.obj _ => (cur, some (Error.jsonType "object" "string"))

/-- Store a JSON value into a Go `bool`. -/
def storeBool (j : Json) (cur : Bool) : Bool × Option Error :=
  match j with
  | Json.bool b => (b, none)
  | Json.null => (cur, none)
  | Json.str _ => (cur, some (Error.jsonType "string" "bool"))
  | Json.num _ => (cur, some (Error.jsonType "number" "bool"))
  | Json.arr _ => (cur, some (Error.jsonType "array" "bool"))
  | Json.obj _ => (cur, some (Error.jsonType "object" "bool"))

/-- Store a JSON value into a Go `int64`. -/
def storeInt64 (j : Json) (cur : Int) : Int × Option Error :=
  match j with
  | Json.num literal =>
    match parseInt64 literal with
    | some n => (n, none)
    | none => (cur, some (Error.jsonType ("number " ++ literal) "int64"))
  | Json.null => (cur, none)
  | Json.bool _ => (cur, some (Error.jsonType "bool" "int64"))
  | Json.str _ => (cur, some (Error.jsonType "string" "int64"))
  | Json.arr _ => (cur, some (Error.jsonType "array" "int64"))
  | Json.obj _ => (cur, some (Error.jsonType "object" "int64"))

/-- The decoder keeps the first error it recorded. -/
def saveError (saved new : Option Error) : Option Error :=
  match saved with
  | some e => some e
  | none => new

/-- Decode the members of a JSON object, in order, into a struct; `setField`
stores one member. -/
def decodeMembers {α : Type} (setField : α → String → Json → α × Option Error) :
    List (String × Json) → α → Option Error → α × Option Error
  | [], a, saved => (a, saved)
  | (key, v) :: members, a, saved =>
    decodeMembers setField members (setField a key v).1 (saveError saved (setField a key v).2)

/-- Store a JSON value into a Go struct of type `goType`. -/
def storeStruct {α : Type} (goType : String) (setField : α → String → Json → α × Option Error)
    (j : Json) (cur : α) : α × Option Error :=
  match j with
  | Json.obj members => decodeMembers setField members cur none
  | Json.null => (cur, none)
  | Json.bool _ => (cur, some (Error.jsonType "bool" goType))
  | Json.num _ => (cur, some (Error.jsonType "number" goType))
  | Json.str _ => (cur, some (Error.jsonType "string" goType))
  | Json.arr _ => (cur, some (Error.jsonType "array" goType))

/-- One member of a JSON object stored into a `DashboardMeta`, by its `json:` tags. -/
def DashboardMeta.setField (m : DashboardMeta) (key : String) (v : Json) :
    DashboardMeta × Option Error :=
  if keyIs key "uid" then ({ m with UID := (storeString v m.UID).1 }, (storeString v m.UID).2)
  else if keyIs key "title" then
    ({ m with Title := (storeString v m.Title).1 }, (storeString v m.Title).2)
  else if keyIs key "isStarred" then
    ({ m with IsStarred := (storeBool v m.IsStarred).1 }, (storeBool v m.IsStarred).2)
  else if keyIs key "slug" then
    ({ m with Slug := (storeString v m.Slug).1 }, (storeString v m.Slug).2)
  else if keyIs key "folderId" then
    ({ m with Folder := (storeInt64 v m.Folder).1 }, (storeInt64 v m.Folder).2)
  else if keyIs key "folderTitle" then
    ({ m with FolderTitle := (storeString v m.FolderTitle).1 }, (storeString v m.FolderTitle).2)
  else (m, none)

/-- One member of a JSON object stored into a `DashboardSaveResponse`. -/
def DashboardSaveResponse.setField (r : DashboardSaveResponse) (key : String) (v : Json) :
    DashboardSaveResponse × Option Error :=
  if keyIs key "slug" then ({ r with Slug := (storeString v r.Slug).1 }, (storeString v r.Slug).2)
  else if keyIs key "id" then ({ r with ID := (storeInt64 v r.ID).1 }, (storeInt64 v r.ID).2)
  else if keyIs key "uid" then ({ r with UID := (storeString v r.UID).1 }, (storeString v r.UID).2)
  else if keyIs key "url" then ({ r with URL := (storeString v r.URL).1 }, (storeString v r.URL).2)
  else if keyIs key "status" then
    ({ r with Status := (storeString v r.Status).1 }, (storeString v r.Status).2)
  else if keyIs key "version" then
    ({ r with Version := (storeInt64 v r.Version).1 }, (storeInt64 v r.Version).2)
  else (r, none)

/-- One member of a JSON object stored into a `Dashboards` search row. -/
def Dashboards.setField (r : Dashboards) (key : String) (v : Json) : Dashboards × Option Error :=
  if keyIs key "id" then ({ r with ID := (storeInt64 v r.ID).1 }, (storeInt64 v r.ID).2)
  else if keyIs key "uid" then ({ r with UID := (storeString v r.UID).1 }, (storeString v r.UID).2)
  else if keyIs key "title" then
    ({ r with Title := (storeString v r.Title).1 }, (storeString v r.Title).2)
  else if keyIs key "uri" then ({ r with URI := (storeString v r.URI).1 }, (storeString v r.URI).2)
  else if keyIs key "url" then ({ r with URL := (storeString v r.URL).1 }, (storeString v r.URL).2)
  else if keyIs key "isStarred" then
    ({ r with Starred := (storeBool v r.Starred).1 }, (storeBool v r.Starred).2)
  else if keyIs key "folderId" then
    ({ r with FolderID := (storeInt64 v r.FolderID).1 }, (storeInt64 v r.FolderID).2)
  else if keyIs key "folderUid" then
    ({ r with FolderUID := (storeString v r.FolderUID).1 }, (storeString v r.FolderUID).2)
  else if keyIs key "folderTitle" then
    ({ r with FolderTitle := (storeString v r.FolderTitle).1 }, (storeString v r.FolderTitle).2)
  else (r, none)

/-- One member of a JSON object stored into a `DashboardDeleteResponse`. The
struct tag of `Title` is written without quotes (line 138), so it is not a
`json:` tag and the field goes by its Go name `Title`. -/
def DashboardDeleteResponse.setField (r : DashboardDeleteResponse) (key : String) (v : Json) :
    DashboardDeleteResponse × Option Error :=
  if keyIs key "Title" then ({ r with Title := (storeString v r.Title).1 }, (storeString v r.Title).2)
  else (r, none)

/-- One member of a JSON object stored into a `Dashboard`. `storeModel` stores a
JSON value into a `DashboardModel`; it depends on the declarations of
`DashboardPanel` and `TimeRange`, which are outside `dashboard.go`. -/
def Dashboard.setField {ρ τ : Type}
    (storeModel : Json → DashboardModel ρ τ → DashboardModel ρ τ × Option Error)
    (d : Dashboard ρ τ) (key : String) (v : Json) : Dashboard ρ τ × Option Error :=
  if keyIs key "meta" then
    ({ d with Meta := (storeStruct "gapi.DashboardMeta" DashboardMeta.setField v d.Meta).1 },
      (storeStruct "gapi.DashboardMeta" DashboardMeta.setField v d.Meta).2)
  else if keyIs key "dashboard" then
    ({ d with Model := (storeModel v d.Model).1 }, (storeModel v d.Model).2)
  else if keyIs key "folderId" then
    ({ d with Folder := (storeInt64 v d.Folder).1 }, (storeInt64 v d.Folder).2)
  else if keyIs key "overwrite" then
    ({ d with Overwrite := (storeBool v d.Overwrite).1 }, (storeBool v d.Overwrite).2)
  else (d, none)

/-- The call `json.Unmarshal(data, &p)` for a non-nil pointer variable `p` of type
`*T` that points to `cur`. Returns the pointer after the call (`none`: nil) and
the error. Input that is not well-formed is rejected before anything is stored;
the literal `null` sets `p` itself to nil; any other value is stored into the
struct `p` points to. -/
def unmarshalPtr {α : Type} (store : Json → α → α × Option Error) (data : String) (cur : α) :
    Option α × Option Error :=
  match scanJSON data with
  | none => (some cur, some Error.jsonMalformed)
  | some Json.null => (none, none)
  | some j => (some (store j cur).1, (store j cur).2)

/-- The elements of a JSON array decoded into fresh `Dashboards` values. -/
def decodeRows : List Json → Option Error → List Dashboards × Option Error
  | [], saved => ([], saved)
  | j :: js, saved =>
    ((storeStruct "gapi.Dashboards" Dashboards.setField j Dashboards.zero).1 ::
        (decodeRows js (saveError saved
          (storeStruct "gapi.Dashboards" Dashboards.setField j Dashboards.zero).2)).1,
      (decodeRows js (saveError saved
          (storeStruct "gapi.Dashboards" Dashboards.setField j Dashboards.zero).2)).2)

/-- The call `json.Unmarshal(data, &dashboards)` for the slice variable
`dashboards` of `SearchDashboard`, which holds `cur`, an empty slice made by
`make([]Dashboards, 0)`, so that every element is decoded into a fresh zero
value. `null` sets the slice to nil; an array replaces it (the empty array by an
empty non-nil slice); any other value is a type error and leaves it unchanged. -/
def unmarshalRows (data : String) (cur : Option (List Dashboards)) :
    Option (List Dashboards) × Option Error :=
  match scanJSON data with
  | none => (cur, some Error.jsonMalformed)
  | some Json.null => (none, none)
  | some (Json.arr elems) => (some (decodeRows elems none).1, (decodeRows elems none).2)
  | some (Json.bool _) => (cur, some (Error.jsonType "bool" "[]gapi.Dashboards"))
  | some (Json.num _) => (cur, some (Error.jsonType "number" "[]gapi.Dashboards"))
  | some (Json.str _) => (cur, some (Error.jsonType "string" "[]gapi.Dashboards"))
  | some (Json.obj _) => (cur, some (Error.jsonType "object" "[]gapi.Dashboards"))

/-! ## The HTTP request executor (`Client`, declared outside `dashboard.go`) -/

/-- What `ioutil.ReadAll(resp.Body)` returns: the bytes read and the error. -/
structure ReadAll where
  data : String
  err : Option Error
  deriving DecidableEq, Repr

/-- The fields of `*http.Response` that `dashboard.go` reads. -/
structure Response where
  StatusCode : Int
  Status : String
  Body : ReadAll
  deriving DecidableEq, Repr

/-- The query parameters of a request (`url.Values`), as the list of `Add` calls. -/
abbrev Values := List (String × String)

/-- The methods of `*Client` that `dashboard.go` calls. `newRequest` takes the
method, the path, the query (`none` for nil) and the body (`none` for nil);
each returns its value or a non-nil error. -/
structure Client (Req : Type) where
  newRequest : String → String → Option Values → Option String → Except Error Req
  Do : Req → Except Error Response

/-- The calls to `json.Marshal` and to the decoder of `DashboardModel`, which
work on values whose types are declared outside `dashboard.go`. `μ` is the raw
model mapping `map[string]interface{}` of `SaveDashboard`. -/
structure Codec (ρ τ μ : Type) where
  /-- The call `json.Marshal` of the wrapper with the keys `dashboard` and `overwrite`. -/
  marshalWrapper : μ → Bool → Except Error String
  /-- The call `json.Marshal` of a `Dashboard`. -/
  marshalDashboard : Dashboard ρ τ → Except Error String
  /-- Store a JSON value into a `DashboardModel`. -/
  storeModel : Json → DashboardModel ρ τ → DashboardModel ρ τ × Option Error

/-- The `%d` rendering of a Go `int`. -/
def fmtInt (n : Int) : String := toString n

/-! ## The operations (`dashboard.go`, lines 141-322)

The `log.Printf` of `GetDashboard` and `Dashboard` under `GF_LOG` writes to the
log only and is left out. -/

/-- Deprecated: use NewDashboard instead. -/
def Client.SaveDashboard {Req ρ τ μ : Type} (c : Client Req) (codec : Codec ρ τ μ)
    (model : μ) (overwrite : Bool) : Option DashboardSaveResponse × Option Error :=
  match codec.marshalWrapper model overwrite with
  | Except.error err => (none, some err)
  | Except.ok data =>
    match c.newRequest "POST" "/api/dashboards/db" none (some data) with
    | Except.error err => (none, some err)
    | Except.ok req =>
      match c.Do req with
      | Except.error err => (none, some err)
      | Except.ok resp =>
        if resp.StatusCode ≠ 200 then
          (none, some (Error.text
            ("status: " ++ fmtInt resp.StatusCode ++ ", body: " ++ resp.Body.data)))
        else
          match resp.Body.err with
          | some err => (none, some err)
          | none =>
            unmarshalPtr (storeStruct "gapi.DashboardSaveResponse" DashboardSaveResponse.setField)
              resp.Body.data DashboardSaveResponse.zero

def Client.NewDashboard {Req ρ τ μ : Type} (c : Client Req) (codec : Codec ρ τ μ)
    (dashboard : Dashboard ρ τ) : Option DashboardSaveResponse × Option Error :=
  match codec.marshalDashboard dashboard with
  | Except.error err => (none, some err)
  | Except.ok data =>
    match c.newRequest "POST" "/api/dashboards/import" none (some data) with
    | Except.error err => (none, some err)
    | Except.ok req =>
      match c.Do req with
      | Except.error err => (none, some err)
      | Except.ok resp =>
        if resp.StatusCode ≠ 200 then (none, some (Error.text resp.Status))
        else
          match resp.Body.err with
          | some err => (none, some err)
          | none =>
            unmarshalPtr (storeStruct "gapi.DashboardSaveResponse" DashboardSaveResponse.setField)
              resp.Body.data DashboardSaveResponse.zero

/-- SearchDashboard search a dashboard in Grafana. -/
def Client.SearchDashboard {Req : Type} (c : Client Req) (query : String) (folderID : String) :
    Option (List Dashboards) × Option Error :=
  let dashboards : Option (List Dashboards) := some []
  let path := "/api/search"
  let params : Values := [("type", "dash-db"), ("query", query), ("folderIds", folderID)]
  match c.newRequest "GET" path (some params) none with
  | Except.error err => (dashboards, some err)
  | Except.ok req =>
    match c.Do req with
    | Except.error err => (dashboards, some err)
    | Except.ok resp =>
      if resp.StatusCode ≠ 200 then (dashboards, some (Error.text resp.Status))
      else
        match resp.Body.err with
        | some err => (dashboards, some err)
        | none => unmarshalRows resp.Body.data dashboards

/-- The tail of `GetDashboard` (lines 255-264): decode, copy the folder, set the
uid. The assignment `result.Folder = ...` dereferences `result`, which the
decoder has set to nil when the body is `null`. -/
def GetDashboard.finish {ρ τ μ : Type} [GoZero τ] (codec : Codec ρ τ μ) (uid : String)
    (data : String) : Go (Option (Dashboard ρ τ) × Option Error) :=
  match unmarshalPtr (storeStruct "gapi.Dashboard" (Dashboard.setField codec.storeModel))
      data Dashboard.zero with
  | (none, _) => Go.panic
  | (some result, err) =>
    let result1 := { result with Folder := result.Meta.Folder }
    let result2 := { result1 with Meta := { result1.Meta with UID := uid } }
    Go.ret (some result2, err)

/-- GetDashboard get a dashboard by UID. -/
def Client.GetDashboard {Req ρ τ μ : Type} [GoZero τ] (c : Client Req) (codec : Codec ρ τ μ)
    (uid : String) : Go (Option (Dashboard ρ τ) × Option Error) :=
  let path := "/api/dashboards/uid/" ++ uid
  match c.newRequest "GET" path none none with
  | Except.error err => Go.ret (none, some err)
  | Except.ok req =>
    match c.Do req with
    | Except.error err => Go.ret (none, some err)
    | Except.ok resp =>
      if resp.StatusCode ≠ 200 then Go.ret (none, some (Error.text resp.Status))
      else
        match resp.Body.err with
        | some err => Go.ret (none, some err)
        | none => GetDashboard.finish codec uid resp.Body.data

/-- The tail of `Dashboard` (lines 288-294): decode and copy the folder. -/
def Dashboard.finish {ρ τ μ : Type} [GoZero τ] (codec : Codec ρ τ μ)
    (data : String) : Go (Option (Dashboard ρ τ) × Option Error) :=
  match unmarshalPtr (storeStruct "gapi.Dashboard" (Dashboard.setField codec.storeModel))
      data Dashboard.zero with
  | (none, _) => Go.panic
  | (some result, err) => Go.ret (some { result with Folder := result.Meta.Folder }, err)

/-- Deprecated: use GetDashboard instead. -/
def Client.Dashboard {Req ρ τ μ : Type} [GoZero τ] (c : Client Req) (codec : Codec ρ τ μ)
    (slug : String) : Go (Option (Dashboard ρ τ) × Option Error) :=
  let path := "/api/dashboards/db/" ++ slug
  match c.newRequest "GET" path none none with
  | Except.error err => Go.ret (none, some err)
  | Except.ok req =>
    match c.Do req with
    | Except.error err => Go.ret (none, some err)
    | Except.ok resp =>
      if resp.StatusCode ≠ 200 then Go.ret (none, some (Error.text resp.Status))
      else
        match resp.Body.err with
        | some err => Go.ret (none, some err)
        | none => Dashboard.finish codec resp.Body.data

/-- The tail of `DeleteDashboard` (lines 317-321): decode, return on error, read
the title through the pointer `deleted`. -/
def DeleteDashboard.finish (data : String) : Go (String × Option Error) :=
  match unmarshalPtr (storeStruct "gapi.DashboardDeleteResponse" DashboardDeleteResponse.setField)
      data DashboardDeleteResponse.zero with
  | (_, some err) => Go.ret ("", some err)
  | (none, none) => Go.panic
  | (some deleted, none) => Go.ret (deleted.Title, none)

/-- DeleteDashboard deletes a grafana dashoboard. -/
def Client.DeleteDashboard {Req : Type} (c : Client Req) (uid : String) :
    Go (String × Option Error) :=
  let path := "/api/dashboards/uid/" ++ uid
  match c.newRequest "DELETE" path none none with
  | Except.error err => Go.ret ("", some err)
  | Except.ok req =>
    match c.Do req with
    | Except.error err => Go.ret ("", some err)
    | Except.ok resp =>
      if resp.StatusCode ≠ 200 then Go.ret ("", some (Error.text resp.Status))
      else
        match resp.Body.err with
        | some err => Go.ret ("", some err)
        | none => DeleteDashboard.finish resp.Body.data

/-! ## `FrontendURL` (lines 40-47) -/

/-- The UTF-8 encoding of one character, as byte values. -/
def utf8Bytes (c : Char) : List Nat :=
  let n := c.toNat
  if n < 0x80 then [n]
  else if n < 0x800 then [0xC0 + n / 0x40, 0x80 + n % 0x40]
  else if n < 0x10000 then [0xE0 + n / 0x1000, 0x80 + n / 0x40 % 0x40, 0x80 + n % 0x40]
  else [0xF0 + n / 0x40000, 0x80 + n / 0x1000 % 0x40, 0x80 + n / 0x40 % 0x40, 0x80 + n % 0x40]

/-- Upper-case hexadecimal digit of a value below 16. -/
def upperHex (n : Nat) : Char :=
  if n < 10 then Char.ofNat ('0'.toNat + n) else Char.ofNat ('A'.toNat + (n - 10))

/-- The characters that URL encoding of a query component leaves as they are. -/
def isUnreserved (c : Char) : Bool :=
  ('a' ≤ c && c ≤ 'z') || ('A' ≤ c && c ≤ 'Z') || ('0' ≤ c && c ≤ '9') ||
    c = '-' || c = '_' || c = '.' || c = '~'

/-- URL encoding of one character of a query component. -/
def escapeChar (c : Char) : List Char :=
  if isUnreserved c then [c]
  else if c = ' ' then ['+']
  else (utf8Bytes c).flatMap (fun b => ['%', upperHex (b / 16), upperHex (b % 16)])

/-- Modelled from the spec: the `urlEncodedValue` of the query-string encoding
(External interfaces), read as the encoding of a query component by
`url.QueryEscape`. -/
def urlEncode (v : String) : String := String.mk (v.data.flatMap escapeChar)

/-- Modelled from the spec: the pairs of the query string; `dasboardVarsToQueryString`
is called by `FrontendURL` and defined outside `dashboard.go`. Each entry of the
mapping contributes one pair `var-{name}={urlEncodedValue}` for each of its
values, in the order of the mapping. The mapping is given as the list of its
entries in iteration order. -/
def dashboardVarPairs (dashboardVars : List (String × List String)) : List String :=
  dashboardVars.flatMap (fun entry => entry.2.map (fun v => "var-" ++ entry.1 ++ "=" ++ urlEncode v))

/-- Modelled from the spec: `dasboardVarsToQueryString`, defined outside
`dashboard.go`; the pairs of `dashboardVarPairs` joined by `&`. -/
def dasboardVarsToQueryString (dashboardVars : List (String × List String)) : String :=
  "&".intercalate (dashboardVarPairs dashboardVars)

def Dashboard.FrontendURL {ρ τ : Type} (d : Dashboard ρ τ)
    (dashboardVars : List (String × List String)) : String :=
  let exportBase := ""
  let exportBase := exportBase ++ "/d"
  let exportBase := exportBase ++ ("/" ++ d.Meta.UID)
  let exportBase := exportBase ++ ("?" ++ dasboardVarsToQueryString dashboardVars)
  exportBase

/-! ## Concrete collaborators for the instances -/

instance : GoZero String := ⟨""⟩

/-- An executor that builds every request and answers each with `resp`. -/
def fixedClient (resp : Response) : Client Unit :=
  { newRequest := fun _ _ _ _ => Except.ok (), Do := fun _ => Except.ok resp }

/-- An executor whose transport fails with `err`. -/
def failingClient (err : Error) : Client Unit :=
  { newRequest := fun _ _ _ _ => Except.ok (), Do := fun _ => Except.error err }

/-- A codec for a package whose panels and time range carry no further fields:
every value is encoded as the text `payload` and the model decoder stores
nothing. The instances below that use it never reach the model decoder. -/
def plainCodec (payload : String) : Codec String Unit Unit :=
  { marshalWrapper := fun _ _ => Except.ok payload,
    marshalDashboard := fun _ => Except.ok payload,
    storeModel := fun _ m => (m, none) }

/-- A dashboard with the given uid and panels and zero values elsewhere. -/
def sampleDashboard (uid : String) (panels : List (DashboardPanel String)) :
    Dashboard String Unit :=
  { (Dashboard.zero : Dashboard String Unit) with
    Meta := { DashboardMeta.zero with UID := uid },
    Model := { (DashboardModel.zero : DashboardModel String Unit) with Panels := panels } }

/-! ## Theorems -/

/-- The lookup loop returns the first entry with the requested ID. -/
theorem loop_first {ρ : Type} [GoZero ρ] (panelID : Int) (pre post : List (DashboardPanel ρ))
    (p : DashboardPanel ρ) (hp : p.ID = panelID) (hpre : ∀ q ∈ pre, q.ID ≠ panelID) :
    GetPanelFromDashboard.loop panelID (pre ++ p :: post) = (p, none) := by
  induction pre with
  | nil => simp [GetPanelFromDashboard.loop, hp]
  | cons q qs ih =>
    have hq : q.ID ≠ panelID := hpre q (List.mem_cons_self _ _)
    have hqs : ∀ r ∈ qs, r.ID ≠ panelID := fun r hr => hpre r (List.mem_cons_of_mem _ hr)
    simp [GetPanelFromDashboard.loop, hq, ih hqs]

/-- The lookup loop on a list without the requested ID returns the zero panel. -/
theorem loop_miss {ρ : Type} [GoZero ρ] (panelID : Int) (panels : List (DashboardPanel ρ))
    (h : ∀ q ∈ panels, q.ID ≠ panelID) :
    GetPanelFromDashboard.loop panelID panels = (DashboardPanel.zero, none) := by
  induction panels with
  | nil => rfl
  | cons q qs ih =>
    have hq : q.ID ≠ panelID := h q (List.mem_cons_self _ _)
    have hqs : ∀ r ∈ qs, r.ID ≠ panelID := fun r hr => h r (List.mem_cons_of_mem _ hr)
    simp [GetPanelFromDashboard.loop, hq, ih hqs]

/-- A list with an entry of the requested ID splits at its first such entry. -/
theorem split_first {ρ : Type} (panelID : Int) (panels : List (DashboardPanel ρ))
    (h : ∃ q ∈ panels, q.ID = panelID) :
    ∃ pre p post, panels = pre ++ p :: post ∧ p.ID = panelID ∧ ∀ q ∈ pre, q.ID ≠ panelID := by
  induction panels with
  | nil => simp at h
  | cons q qs ih =>
    by_cases hq : q.ID = panelID
    · exact ⟨[], q, qs, rfl, hq, by simp⟩
    · have h2 : ∃ r ∈ qs, r.ID = panelID := by
        obtain ⟨r, hr, hrid⟩ := h
        rcases List.mem_cons.mp hr with rfl | hr
        · exact absurd hrid hq
        · exact ⟨r, hr, hrid⟩
      obtain ⟨pre, p, post, he, hp, hpre⟩ := ih h2
      refine ⟨q :: pre, p, post, by simp [he], hp, ?_⟩
      intro r hr
      rcases List.mem_cons.mp hr with rfl | hr
      · exact hq
      · exact hpre r hr

/-- C3: whenever some entry of `Model.Panels` has the requested ID,
`GetPanelFromDashboard` returns the first such entry in list order (the entries
before it all have another ID, the entries after it may repeat the ID), with a
nil error. -/
theorem getPanel_returns_first {ρ τ : Type} [GoZero ρ] (d : Dashboard ρ τ) (panelID : Int)
    (h : ∃ q ∈ d.Model.Panels, q.ID = panelID) :
    ∃ pre p post, d.Model.Panels = pre ++ p :: post ∧ p.ID = panelID ∧
      (∀ q ∈ pre, q.ID ≠ panelID) ∧ d.GetPanelFromDashboard panelID = (p, none) := by
  obtain ⟨pre, p, post, he, hp, hpre⟩ := split_first panelID d.Model.Panels h
  refine ⟨pre, p, post, he, hp, hpre, ?_⟩
  unfold Dashboard.GetPanelFromDashboard
  rw [he]
  exact loop_first panelID pre post p hp hpre

/-- Instance of C3: the ID 2 occurs twice, the first occurrence is returned. -/
theorem getPanel_returns_first_witness :
    (∃ q ∈ (sampleDashboard "u" [⟨1, "a"⟩, ⟨2, "b"⟩, ⟨2, "c"⟩]).Model.Panels, q.ID = 2) ∧
    (sampleDashboard "u" [⟨1, "a"⟩, ⟨2, "b"⟩, ⟨2, "c"⟩]).GetPanelFromDashboard 2
      = (⟨2, "b"⟩, none) ∧
    ∃ pre p post,
      (sampleDashboard "u" [⟨1, "a"⟩, ⟨2, "b"⟩, ⟨2, "c"⟩]).Model.Panels = pre ++ p :: post ∧
      p.ID = 2 ∧ (∀ q ∈ pre, q.ID ≠ 2) ∧
      (sampleDashboard "u" [⟨1, "a"⟩, ⟨2, "b"⟩, ⟨2, "c"⟩]).GetPanelFromDashboard 2 = (p, none) :=
  ⟨⟨⟨2, "b"⟩, by decide, rfl⟩, by decide,
    getPanel_returns_first (sampleDashboard "u" [⟨1, "a"⟩, ⟨2, "b"⟩, ⟨2, "c"⟩]) 2
      ⟨⟨2, "b"⟩, by decide, rfl⟩⟩

/-- C4: when no entry of `Model.Panels` has the requested ID (also when the list
is empty), `GetPanelFromDashboard` returns the zero-value `DashboardPanel` and a
nil error. -/
theorem getPanel_miss_zero_nil {ρ τ : Type} [GoZero ρ] (d : Dashboard ρ τ) (panelID : Int)
    (h : ∀ q ∈ d.Model.Panels, q.ID ≠ panelID) :
    d.GetPanelFromDashboard panelID = (DashboardPanel.zero, none) :=
  loop_miss panelID d.Model.Panels h

/-- Instance of C4: a miss in a non-empty list. -/
theorem getPanel_miss_zero_nil_witness :
    (∀ q ∈ (sampleDashboard "u" [⟨1, "a"⟩, ⟨2, "b"⟩]).Model.Panels, q.ID ≠ 7) ∧
    (sampleDashboard "u" [⟨1, "a"⟩, ⟨2, "b"⟩]).GetPanelFromDashboard 7 = (⟨0, ""⟩, none) :=
  ⟨by decide,
    getPanel_miss_zero_nil (sampleDashboard "u" [⟨1, "a"⟩, ⟨2, "b"⟩]) 7 (by decide)⟩

/-- C10: for a non-zero panel id, the panel returned by `GetPanelFromDashboard`
has the requested ID if and only if some entry of `Model.Panels` has it; the
error is nil on every path; for id 0 the returned panel has ID 0 whether or not
an entry has it, and a miss (empty list) and a hit on a zero-valued panel return
the same pair. -/
theorem getPanel_id_iff_present {ρ τ : Type} [GoZero ρ] (d : Dashboard ρ τ) (panelID : Int)
    (h0 : panelID ≠ 0) :
    ((d.GetPanelFromDashboard panelID).1.ID = panelID ↔ ∃ q ∈ d.Model.Panels, q.ID = panelID) ∧
    (∀ (e : Dashboard ρ τ) (id : Int), (e.GetPanelFromDashboard id).2 = none) ∧
    (∀ e : Dashboard ρ τ, (e.GetPanelFromDashboard 0).1.ID = 0) ∧
    (∀ e1 e2 : Dashboard ρ τ, e1.Model.Panels = [] → e2.Model.Panels = [DashboardPanel.zero] →
      e1.GetPanelFromDashboard 0 = e2.GetPanelFromDashboard 0) := by
  refine ⟨⟨?_, ?_⟩, ?_, ?_, ?_⟩
  · intro hid
    by_contra hno
    have hmiss : ∀ q ∈ d.Model.Panels, q.ID ≠ panelID := fun q hq hqid => hno ⟨q, hq, hqid⟩
    have hz := loop_miss panelID d.Model.Panels hmiss
    unfold Dashboard.GetPanelFromDashboard at hid
    rw [hz] at hid
    exact h0 hid.symm
  · intro hex
    obtain ⟨pre, p, post, he, hp, hpre⟩ := split_first panelID d.Model.Panels hex
    unfold Dashboard.GetPanelFromDashboard
    rw [he, loop_first panelID pre post p hp hpre]
    exact hp
  · intro e id
    by_cases hex : ∃ q ∈ e.Model.Panels, q.ID = id
    · obtain ⟨pre, p, post, he, hp, hpre⟩ := split_first id e.Model.Panels hex
      unfold Dashboard.GetPanelFromDashboard
      rw [he, loop_first id pre post p hp hpre]
    · have hmiss : ∀ q ∈ e.Model.Panels, q.ID ≠ id := fun q hq hqid => hex ⟨q, hq, hqid⟩
      unfold Dashboard.GetPanelFromDashboard
      rw [loop_miss id e.Model.Panels hmiss]
  · intro e
    by_cases hex : ∃ q ∈ e.Model.Panels, q.ID = 0
    · obtain ⟨pre, p, post, he, hp, hpre⟩ := split_first 0 e.Model.Panels hex
      unfold Dashboard.GetPanelFromDashboard
      rw [he, loop_first 0 pre post p hp hpre]
      exact hp
    · have hmiss : ∀ q ∈ e.Model.Panels, q.ID ≠ 0 := fun q hq hqid => hex ⟨q, hq, hqid⟩
      unfold Dashboard.GetPanelFromDashboard
      rw [loop_miss 0 e.Model.Panels hmiss]
      rfl
  · intro e1 e2 h1 h2
    unfold Dashboard.GetPanelFromDashboard
    rw [h1, h2]
    simp [GetPanelFromDashboard.loop, DashboardPanel.zero]

/-- Instance of C10: with id 2 present the returned ID is 2. -/
theorem getPanel_id_iff_present_witness :
    (2 : Int) ≠ 0 ∧
    (((sampleDashboard "u" [⟨1, "a"⟩, ⟨2, "b"⟩]).GetPanelFromDashboard 2).1.ID = 2 ↔
      ∃ q ∈ (sampleDashboard "u" [⟨1, "a"⟩, ⟨2, "b"⟩]).Model.Panels, q.ID = 2) :=
  ⟨by decide,
    (getPanel_id_iff_present (sampleDashboard "u" [⟨1, "a"⟩, ⟨2, "b"⟩]) 2 (by decide)).1⟩

/-! ### The nesting limit of the scanner -/

/-- An array or object that opens inside `maxNestingDepth` enclosing ones is
rejected, whatever follows. -/
theorem scanValue_depth_limit (n : Nat) (rest : List Char) :
    scanValue (n + 1) maxNestingDepth ('[' :: rest) = none ∧
    scanValue (n + 1) maxNestingDepth ('\x7b' :: rest) = none := by
  constructor <;> simp [scanValue, skipSpace, isSpace]

/-! ### Responses with a status other than 200 -/

/-- The result of `SaveDashboard` on a response with a status other than 200. -/
theorem save_non200 {Req ρ τ μ : Type} (c : Client Req) (codec : Codec ρ τ μ) (model : μ)
    (overwrite : Bool) (data : String) (req : Req) (resp : Response)
    (hm : codec.marshalWrapper model overwrite = Except.ok data)
    (hr : c.newRequest "POST" "/api/dashboards/db" none (some data) = Except.ok req)
    (hd : c.Do req = Except.ok resp) (h : resp.StatusCode ≠ 200) :
    c.SaveDashboard codec model overwrite
      = (none, some (Error.text
          ("status: " ++ fmtInt resp.StatusCode ++ ", body: " ++ resp.Body.data))) := by
  simp [Client.SaveDashboard, hm, hr, hd, h]

/-- The result of `NewDashboard` on a response with a status other than 200. -/
theorem new_non200 {Req ρ τ μ : Type} (c : Client Req) (codec : Codec ρ τ μ)
    (dashboard : Dashboard ρ τ) (data : String) (req : Req) (resp : Response)
    (hm : codec.marshalDashboard dashboard = Except.ok data)
    (hr : c.newRequest "POST" "/api/dashboards/import" none (some data) = Except.ok req)
    (hd : c.Do req = Except.ok resp) (h : resp.StatusCode ≠ 200) :
    c.NewDashboard codec dashboard = (none, some (Error.text resp.Status)) := by
  simp [Client.NewDashboard, hm, hr, hd, h]

/-- The result of `SearchDashboard` on a response with a status other than 200. -/
theorem search_non200 {Req : Type} (c : Client Req) (query folderID : String) (req : Req)
    (resp : Response)
    (hr : c.newRequest "GET" "/api/search"
      (some [("type", "dash-db"), ("query", query), ("folderIds", folderID)]) none
        = Except.ok req)
    (hd : c.Do req = Except.ok resp) (h : resp.StatusCode ≠ 200) :
    c.SearchDashboard query folderID = (some [], some (Error.text resp.Status)) := by
  simp [Client.SearchDashboard, hr, hd, h]

/-- The result of `GetDashboard` on a response with a status other than 200. -/
theorem get_non200 {Req ρ τ μ : Type} [GoZero τ] (c : Client Req) (codec : Codec ρ τ μ)
    (uid : String) (req : Req) (resp : Response)
    (hr : c.newRequest "GET" ("/api/dashboards/uid/" ++ uid) none none = Except.ok req)
    (hd : c.Do req = Except.ok resp) (h : resp.StatusCode ≠ 200) :
    c.GetDashboard codec uid = Go.ret (none, some (Error.text resp.Status)) := by
  simp [Client.GetDashboard, hr, hd, h]

/-- The result of `Dashboard` on a response with a status other than 200. -/
theorem legacy_non200 {Req ρ τ μ : Type} [GoZero τ] (c : Client Req) (codec : Codec ρ τ μ)
    (slug : String) (req : Req) (resp : Response)
    (hr : c.newRequest "GET" ("/api/dashboards/db/" ++ slug) none none = Except.ok req)
    (hd : c.Do req = Except.ok resp) (h : resp.StatusCode ≠ 200) :
    c.Dashboard codec slug = Go.ret (none, some (Error.text resp.Status)) := by
  simp [Client.Dashboard, hr, hd, h]

/-- The result of `DeleteDashboard` on a response with a status other than 200. -/
theorem delete_non200 {Req : Type} (c : Client Req) (uid : String) (req : Req)
    (resp : Response)
    (hr : c.newRequest "DELETE" ("/api/dashboards/uid/" ++ uid) none none = Except.ok req)
    (hd : c.Do req = Except.ok resp) (h : resp.StatusCode ≠ 200) :
    c.DeleteDashboard uid = Go.ret ("", some (Error.text resp.Status)) := by
  simp [Client.DeleteDashboard, hr, hd, h]

/-- C6: for each of the six operations, when the executor answers the
operation's request with a response whose status code is not 200, the operation
returns a non-nil error together with the absent result: the nil pointer
(`SaveDashboard`, `NewDashboard`, `GetDashboard`, `Dashboard`), the empty non-nil
slice (`SearchDashboard`) or the empty string (`DeleteDashboard`). -/
theorem non200_error_and_absent {Req ρ τ μ : Type} [GoZero τ] (c : Client Req)
    (codec : Codec ρ τ μ) (resp : Response) (h : resp.StatusCode ≠ 200) :
    (∀ (model : μ) (overwrite : Bool) (data : String) (req : Req),
      codec.marshalWrapper model overwrite = Except.ok data →
      c.newRequest "POST" "/api/dashboards/db" none (some data) = Except.ok req →
      c.Do req = Except.ok resp →
      ∃ err, c.SaveDashboard codec model overwrite = (none, some err)) ∧
    (∀ (dashboard : Dashboard ρ τ) (data : String) (req : Req),
      codec.marshalDashboard dashboard = Except.ok data →
      c.newRequest "POST" "/api/dashboards/import" none (some data) = Except.ok req →
      c.Do req = Except.ok resp →
      ∃ err, c.NewDashboard codec dashboard = (none, some err)) ∧
    (∀ (query folderID : String) (req : Req),
      c.newRequest "GET" "/api/search"
        (some [("type", "dash-db"), ("query", query), ("folderIds", folderID)]) none
          = Except.ok req →
      c.Do req = Except.ok resp →
      ∃ err, c.SearchDashboard query folderID = (some [], some err)) ∧
    (∀ (uid : String) (req : Req),
      c.newRequest "GET" ("/api/dashboards/uid/" ++ uid) none none = Except.ok req →
      c.Do req = Except.ok resp →
      ∃ err, c.GetDashboard codec uid = Go.ret (none, some err)) ∧
    (∀ (slug : String) (req : Req),
      c.newRequest "GET" ("/api/dashboards/db/" ++ slug) none none = Except.ok req →
      c.Do req = Except.ok resp →
      ∃ err, c.Dashboard codec slug = Go.ret (none, some err)) ∧
    (∀ (uid : String) (req : Req),
      c.newRequest "DELETE" ("/api/dashboards/uid/" ++ uid) none none = Except.ok req →
      c.Do req = Except.ok resp →
      ∃ err, c.DeleteDashboard uid = Go.ret ("", some err)) :=
  ⟨fun model overwrite data req hm hr hd =>
      ⟨_, save_non200 c codec model overwrite data req resp hm hr hd h⟩,
    fun dashboard data req hm hr hd => ⟨_, new_non200 c codec dashboard data req resp hm hr hd h⟩,
    fun query folderID req hr hd => ⟨_, search_non200 c query folderID req resp hr hd h⟩,
    fun uid req hr hd => ⟨_, get_non200 c codec uid req resp hr hd h⟩,
    fun slug req hr hd => ⟨_, legacy_non200 c codec slug req resp hr hd h⟩,
    fun uid req hr hd => ⟨_, delete_non200 c uid req resp hr hd h⟩⟩

/-- Instance of C6: delete on a 404 response gives an error and the empty title. -/
theorem non200_error_and_absent_witness :
    (404 : Int) ≠ 200 ∧
    ∃ err, (fixedClient ⟨404, "404 Not Found", ⟨"", none⟩⟩).DeleteDashboard "abc123"
      = Go.ret ("", some err) :=
  ⟨by decide,
    (non200_error_and_absent (fixedClient ⟨404, "404 Not Found", ⟨"", none⟩⟩) (plainCodec "")
      ⟨404, "404 Not Found", ⟨"", none⟩⟩ (by decide)).2.2.2.2.2 "abc123" () rfl rfl⟩

/-- C9: on a response with a status code other than 200, the error of
`NewDashboard`, `SearchDashboard`, `GetDashboard`, `Dashboard` and
`DeleteDashboard` is the error whose message is the status line `resp.Status`,
and the error of `SaveDashboard` has the message
`status: <status code>, body: <response body>`, the status code in decimal
(`toString` of the integer) and the body as read. -/
theorem non200_error_message {Req ρ τ μ : Type} [GoZero τ] (c : Client Req)
    (codec : Codec ρ τ μ) (resp : Response) (h : resp.StatusCode ≠ 200) :
    (∀ (model : μ) (overwrite : Bool) (data : String) (req : Req),
      codec.marshalWrapper model overwrite = Except.ok data →
      c.newRequest "POST" "/api/dashboards/db" none (some data) = Except.ok req →
      c.Do req = Except.ok resp →
      (c.SaveDashboard codec model overwrite).2 = some (Error.text
        ("status: " ++ toString resp.StatusCode ++ ", body: " ++ resp.Body.data))) ∧
    (∀ (dashboard : Dashboard ρ τ) (data : String) (req : Req),
      codec.marshalDashboard dashboard = Except.ok data →
      c.newRequest "POST" "/api/dashboards/import" none (some data) = Except.ok req →
      c.Do req = Except.ok resp →
      (c.NewDashboard codec dashboard).2 = some (Error.text resp.Status)) ∧
    (∀ (query folderID : String) (req : Req),
      c.newRequest "GET" "/api/search"
        (some [("type", "dash-db"), ("query", query), ("folderIds", folderID)]) none
          = Except.ok req →
      c.Do req = Except.ok resp →
      (c.SearchDashboard query folderID).2 = some (Error.text resp.Status)) ∧
    (∀ (uid : String) (req : Req),
      c.newRequest "GET" ("/api/dashboards/uid/" ++ uid) none none = Except.ok req →
      c.Do req = Except.ok resp →
      ∃ r, c.GetDashboard codec uid = Go.ret (r, some (Error.text resp.Status))) ∧
    (∀ (slug : String) (req : Req),
      c.newRequest "GET" ("/api/dashboards/db/" ++ slug) none none = Except.ok req →
      c.Do req = Except.ok resp →
      ∃ r, c.Dashboard codec slug = Go.ret (r, some (Error.text resp.Status))) ∧
    (∀ (uid : String) (req : Req),
      c.newRequest "DELETE" ("/api/dashboards/uid/" ++ uid) none none = Except.ok req →
      c.Do req = Except.ok resp →
      ∃ r, c.DeleteDashboard uid = Go.ret (r, some (Error.text resp.Status))) :=
  ⟨fun model overwrite data req hm hr hd => by
      rw [save_non200 c codec model overwrite data req resp hm hr hd h]
      rfl,
    fun dashboard data req hm hr hd => by
      rw [new_non200 c codec dashboard data req resp hm hr hd h],
    fun query folderID req hr hd => by rw [search_non200 c query folderID req resp hr hd h],
    fun uid req hr hd => ⟨_, get_non200 c codec uid req resp hr hd h⟩,
    fun slug req hr hd => ⟨_, legacy_non200 c codec slug req resp hr hd h⟩,
    fun uid req hr hd => ⟨_, delete_non200 c uid req resp hr hd h⟩⟩

/-- Instance of C9: the legacy save on a 500 response. -/
theorem non200_error_message_witness :
    (500 : Int) ≠ 200 ∧
    ((fixedClient ⟨500, "500 Internal Server Error", ⟨"boom", none⟩⟩).SaveDashboard
      (plainCodec "payload") () true).2 = some (Error.text "status: 500, body: boom") :=
  ⟨by decide,
    (non200_error_message (fixedClient ⟨500, "500 Internal Server Error", ⟨"boom", none⟩⟩)
      (plainCodec "payload") ⟨500, "500 Internal Server Error", ⟨"boom", none⟩⟩
      (by decide)).1 () true "payload" () rfl rfl rfl⟩

/-! ### Errors and results -/

/-- What `json.Unmarshal` into a struct pointer does on input that is not
well-formed: the target is untouched and the error is the malformed-input error. -/
theorem unmarshalPtr_malformed {α : Type} (store : Json → α → α × Option Error) (data : String)
    (cur : α) (h : scanJSON data = none) :
    unmarshalPtr store data cur = (some cur, some Error.jsonMalformed) := by
  simp [unmarshalPtr, h]

/-- What `json.Unmarshal` into a struct pointer does on the literal `null`. -/
theorem unmarshalPtr_null {α : Type} (store : Json → α → α × Option Error) (data : String)
    (cur : α) (h : scanJSON data = some Json.null) :
    unmarshalPtr store data cur = (none, none) := by
  simp [unmarshalPtr, h]

/-- What `json.Unmarshal` into a struct pointer does on a value other than `null`. -/
theorem unmarshalPtr_value {α : Type} (store : Json → α → α × Option Error) (data : String)
    (cur : α) (j : Json) (h : scanJSON data = some j) (hj : j ≠ Json.null) :
    unmarshalPtr store data cur = (some (store j cur).1, (store j cur).2) := by
  cases j <;> simp_all [unmarshalPtr]

/-- The tail `DeleteDashboard.finish` returns the empty title with every error. -/
theorem delete_finish_error (data title : String) (err : Error)
    (h : DeleteDashboard.finish data = Go.ret (title, some err)) : title = "" := by
  unfold DeleteDashboard.finish at h
  split at h
  · cases h; rfl
  · cases h
  · cases h

/-- Every run of `SearchDashboard` returns the empty non-nil slice with an error,
or has reached the decoder with the readable body of a 200 response. -/
theorem search_cases {Req : Type} (c : Client Req) (query folderID : String) :
    (∃ err, c.SearchDashboard query folderID = (some [], some err)) ∨
    ∃ req resp,
      c.newRequest "GET" "/api/search"
        (some [("type", "dash-db"), ("query", query), ("folderIds", folderID)]) none
          = Except.ok req ∧
      c.Do req = Except.ok resp ∧ resp.StatusCode = 200 ∧ resp.Body.err = none ∧
      c.SearchDashboard query folderID = unmarshalRows resp.Body.data (some []) := by
  cases hr : c.newRequest "GET" "/api/search"
      (some [("type", "dash-db"), ("query", query), ("folderIds", folderID)]) none with
  | error e => exact Or.inl ⟨e, by simp [Client.SearchDashboard, hr]⟩
  | ok req =>
    cases hd : c.Do req with
    | error e => exact Or.inl ⟨e, by simp [Client.SearchDashboard, hr, hd]⟩
    | ok resp =>
      by_cases hs : resp.StatusCode = 200
      · cases hb : resp.Body.err with
        | some e => exact Or.inl ⟨e, by simp [Client.SearchDashboard, hr, hd, hs, hb]⟩
        | none =>
          exact Or.inr ⟨req, resp, rfl, hd, hs, hb,
            by simp [Client.SearchDashboard, hr, hd, hs, hb]⟩
      · exact Or.inl ⟨_, search_non200 c query folderID req resp hr hd hs⟩

/-- Every run of `GetDashboard` returns the nil pointer with an error, or has
reached the decoder with the readable body of a 200 response. -/
theorem get_cases {Req ρ τ μ : Type} [GoZero τ] (c : Client Req) (codec : Codec ρ τ μ)
    (uid : String) :
    (∃ err, c.GetDashboard codec uid = Go.ret (none, some err)) ∨
    ∃ req resp, c.Do req = Except.ok resp ∧ resp.StatusCode = 200 ∧ resp.Body.err = none ∧
      c.GetDashboard codec uid = GetDashboard.finish codec uid resp.Body.data := by
  cases hr : c.newRequest "GET" ("/api/dashboards/uid/" ++ uid) none none with
  | error e => exact Or.inl ⟨e, by simp [Client.GetDashboard, hr]⟩
  | ok req =>
    cases hd : c.Do req with
    | error e => exact Or.inl ⟨e, by simp [Client.GetDashboard, hr, hd]⟩
    | ok resp =>
      by_cases hs : resp.StatusCode = 200
      · cases hb : resp.Body.err with
        | some e => exact Or.inl ⟨e, by simp [Client.GetDashboard, hr, hd, hs, hb]⟩
        | none =>
          exact Or.inr ⟨req, resp, hd, hs, hb, by simp [Client.GetDashboard, hr, hd, hs, hb]⟩
      · exact Or.inl ⟨_, get_non200 c codec uid req resp hr hd hs⟩

/-- Every run of `Dashboard` returns the nil pointer with an error, or has
reached the decoder with the readable body of a 200 response. -/
theorem legacy_cases {Req ρ τ μ : Type} [GoZero τ] (c : Client Req) (codec : Codec ρ τ μ)
    (slug : String) :
    (∃ err, c.Dashboard codec slug = Go.ret (none, some err)) ∨
    ∃ req resp, c.Do req = Except.ok resp ∧ resp.StatusCode = 200 ∧ resp.Body.err = none ∧
      c.Dashboard codec slug = Dashboard.finish codec resp.Body.data := by
  cases hr : c.newRequest "GET" ("/api/dashboards/db/" ++ slug) none none with
  | error e => exact Or.inl ⟨e, by simp [Client.Dashboard, hr]⟩
  | ok req =>
    cases hd : c.Do req with
    | error e => exact Or.inl ⟨e, by simp [Client.Dashboard, hr, hd]⟩
    | ok resp =>
      by_cases hs : resp.StatusCode = 200
      · cases hb : resp.Body.err with
        | some e => exact Or.inl ⟨e, by simp [Client.Dashboard, hr, hd, hs, hb]⟩
        | none =>
          exact Or.inr ⟨req, resp, hd, hs, hb, by simp [Client.Dashboard, hr, hd, hs, hb]⟩
      · exact Or.inl ⟨_, legacy_non200 c codec slug req resp hr hd hs⟩

/-- The operation `DeleteDashboard` returns the empty title with every non-nil error. -/
theorem delete_error_title {Req : Type} (c : Client Req) (uid title : String) (err : Error)
    (h : c.DeleteDashboard uid = Go.ret (title, some err)) : title = "" := by
  unfold Client.DeleteDashboard at h
  cases hr : c.newRequest "DELETE" ("/api/dashboards/uid/" ++ uid) none none with
  | error e => simp [hr] at h; exact h.1.symm
  | ok req =>
    cases hd : c.Do req with
    | error e => simp [hr, hd] at h; exact h.1.symm
    | ok resp =>
      by_cases hs : resp.StatusCode = 200
      · cases hb : resp.Body.err with
        | some e => simp [hr, hd, hs, hb] at h; exact h.1.symm
        | none =>
          simp [hr, hd, hs, hb] at h
          exact delete_finish_error resp.Body.data title err h
      · simp [hr, hd, hs] at h; exact h.1.symm

/-- C7, as amended: every operation that fails before it decodes a body returns
the absent result (nil pointer, empty non-nil slice, empty string) together
with a non-nil error: the error of `json.Marshal`, of `newRequest`, of `Do` or
of reading the body, each returned as it is, or the error made for a status
other than 200. `DeleteDashboard` returns the empty title with every non-nil
error, the decode error included. On a 200 response whose body is read and is
not well-formed JSON, `SaveDashboard`, `NewDashboard` and `Dashboard` return a
pointer to the zero value, `SearchDashboard` the empty non-nil slice and
`DeleteDashboard` the empty title, each next to the decode error. -/
theorem error_before_decode_absent {Req ρ τ μ : Type} [GoZero τ] (c : Client Req)
    (codec : Codec ρ τ μ) :
    (∀ (model : μ) (overwrite : Bool),
      (∀ err, codec.marshalWrapper model overwrite = Except.error err →
        c.SaveDashboard codec model overwrite = (none, some err)) ∧
      (∀ data, codec.marshalWrapper model overwrite = Except.ok data →
        (∀ err, c.newRequest "POST" "/api/dashboards/db" none (some data) = Except.error err →
          c.SaveDashboard codec model overwrite = (none, some err)) ∧
        (∀ req, c.newRequest "POST" "/api/dashboards/db" none (some data) = Except.ok req →
          (∀ err, c.Do req = Except.error err →
            c.SaveDashboard codec model overwrite = (none, some err)) ∧
          (∀ resp, c.Do req = Except.ok resp →
            (resp.StatusCode ≠ 200 →
              ∃ err, c.SaveDashboard codec model overwrite = (none, some err)) ∧
            (resp.StatusCode = 200 →
              (∀ err, resp.Body.err = some err →
                c.SaveDashboard codec model overwrite = (none, some err)) ∧
              (resp.Body.err = none → scanJSON resp.Body.data = none →
                c.SaveDashboard codec model overwrite
                  = (some DashboardSaveResponse.zero, some Error.jsonMalformed))))))) ∧
    (∀ (dashboard : Dashboard ρ τ),
      (∀ err, codec.marshalDashboard dashboard = Except.error err →
        c.NewDashboard codec dashboard = (none, some err)) ∧
      (∀ data, codec.marshalDashboard dashboard = Except.ok data →
        (∀ err, c.newRequest "POST" "/api/dashboards/import" none (some data)
            = Except.error err →
          c.NewDashboard codec dashboard = (none, some err)) ∧
        (∀ req, c.newRequest "POST" "/api/dashboards/import" none (some data) = Except.ok req →
          (∀ err, c.Do req = Except.error err →
            c.NewDashboard codec dashboard = (none, some err)) ∧
          (∀ resp, c.Do req = Except.ok resp →
            (resp.StatusCode ≠ 200 → ∃ err, c.NewDashboard codec dashboard = (none, some err)) ∧
            (resp.StatusCode = 200 →
              (∀ err, resp.Body.err = some err →
                c.NewDashboard codec dashboard = (none, some err)) ∧
              (resp.Body.err = none → scanJSON resp.Body.data = none →
                c.NewDashboard codec dashboard
                  = (some DashboardSaveResponse.zero, some Error.jsonMalformed))))))) ∧
    (∀ (query folderID : String),
      (∀ err, c.newRequest "GET" "/api/search"
          (some [("type", "dash-db"), ("query", query), ("folderIds", folderID)]) none
            = Except.error err →
        c.SearchDashboard query folderID = (some [], some err)) ∧
      (∀ req, c.newRequest "GET" "/api/search"
          (some [("type", "dash-db"), ("query", query), ("folderIds", folderID)]) none
            = Except.ok req →
        (∀ err, c.Do req = Except.error err →
          c.SearchDashboard query folderID = (some [], some err)) ∧
        (∀ resp, c.Do req = Except.ok resp →
          (resp.StatusCode ≠ 200 → ∃ err, c.SearchDashboard query folderID = (some [], some err)) ∧
          (resp.StatusCode = 200 →
            (∀ err, resp.Body.err = some err →
              c.SearchDashboard query folderID = (some [], some err)) ∧
            (resp.Body.err = none → scanJSON resp.Body.data = none →
              c.SearchDashboard query folderID = (some [], some Error.jsonMalformed)))))) ∧
    (∀ (uid : String),
      (∀ err, c.newRequest "GET" ("/api/dashboards/uid/" ++ uid) none none = Except.error err →
        c.GetDashboard codec uid = Go.ret (none, some err)) ∧
      (∀ req, c.newRequest "GET" ("/api/dashboards/uid/" ++ uid) none none = Except.ok req →
        (∀ err, c.Do req = Except.error err →
          c.GetDashboard codec uid = Go.ret (none, some err)) ∧
        (∀ resp, c.Do req = Except.ok resp →
          (resp.StatusCode ≠ 200 → ∃ err, c.GetDashboard codec uid = Go.ret (none, some err)) ∧
          (resp.StatusCode = 200 → ∀ err, resp.Body.err = some err →
            c.GetDashboard codec uid = Go.ret (none, some err))))) ∧
    (∀ (slug : String),
      (∀ err, c.newRequest "GET" ("/api/dashboards/db/" ++ slug) none none = Except.error err →
        c.Dashboard codec slug = Go.ret (none, some err)) ∧
      (∀ req, c.newRequest "GET" ("/api/dashboards/db/" ++ slug) none none = Except.ok req →
        (∀ err, c.Do req = Except.error err →
          c.Dashboard codec slug = Go.ret (none, some err)) ∧
        (∀ resp, c.Do req = Except.ok resp →
          (resp.StatusCode ≠ 200 → ∃ err, c.Dashboard codec slug = Go.ret (none, some err)) ∧
          (resp.StatusCode = 200 →
            (∀ err, resp.Body.err = some err →
              c.Dashboard codec slug = Go.ret (none, some err)) ∧
            (resp.Body.err = none → scanJSON resp.Body.data = none →
              c.Dashboard codec slug
                = Go.ret (some Dashboard.zero, some Error.jsonMalformed)))))) ∧
    (∀ (uid : String),
      (∀ err, c.newRequest "DELETE" ("/api/dashboards/uid/" ++ uid) none none
          = Except.error err →
        c.DeleteDashboard uid = Go.ret ("", some err)) ∧
      (∀ req, c.newRequest "DELETE" ("/api/dashboards/uid/" ++ uid) none none = Except.ok req →
        (∀ err, c.Do req = Except.error err → c.DeleteDashboard uid = Go.ret ("", some err)) ∧
        (∀ resp, c.Do req = Except.ok resp →
          (resp.StatusCode ≠ 200 → ∃ err, c.DeleteDashboard uid = Go.ret ("", some err)) ∧
          (resp.StatusCode = 200 →
            (∀ err, resp.Body.err = some err →
              c.DeleteDashboard uid = Go.ret ("", some err)) ∧
            (resp.Body.err = none → scanJSON resp.Body.data = none →
              c.DeleteDashboard uid = Go.ret ("", some Error.jsonMalformed))))) ∧
      (∀ (title : String) (err : Error),
        c.DeleteDashboard uid = Go.ret (title, some err) → title = "")) := by
  refine ⟨?_, ?_, ?_, ?_, ?_, ?_⟩
  · intro model overwrite
    refine ⟨fun err hm => by simp [Client.SaveDashboard, hm], fun data hm =>
      ⟨fun err hr => by simp [Client.SaveDashboard, hm, hr], fun req hr =>
        ⟨fun err hd => by simp [Client.SaveDashboard, hm, hr, hd], fun resp hd =>
          ⟨fun hs => ⟨_, save_non200 c codec model overwrite data req resp hm hr hd hs⟩,
            fun hs => ⟨fun err hb => by simp [Client.SaveDashboard, hm, hr, hd, hs, hb],
              fun hb hj => by
                simp [Client.SaveDashboard, hm, hr, hd, hs, hb, unmarshalPtr, hj]⟩⟩⟩⟩⟩
  · intro dashboard
    refine ⟨fun err hm => by simp [Client.NewDashboard, hm], fun data hm =>
      ⟨fun err hr => by simp [Client.NewDashboard, hm, hr], fun req hr =>
        ⟨fun err hd => by simp [Client.NewDashboard, hm, hr, hd], fun resp hd =>
          ⟨fun hs => ⟨_, new_non200 c codec dashboard data req resp hm hr hd hs⟩,
            fun hs => ⟨fun err hb => by simp [Client.NewDashboard, hm, hr, hd, hs, hb],
              fun hb hj => by
                simp [Client.NewDashboard, hm, hr, hd, hs, hb, unmarshalPtr, hj]⟩⟩⟩⟩⟩
  · intro query folderID
    refine ⟨fun err hr => by simp [Client.SearchDashboard, hr], fun req hr =>
      ⟨fun err hd => by simp [Client.SearchDashboard, hr, hd], fun resp hd =>
        ⟨fun hs => ⟨_, search_non200 c query folderID req resp hr hd hs⟩,
          fun hs => ⟨fun err hb => by simp [Client.SearchDashboard, hr, hd, hs, hb],
            fun hb hj => by
              simp [Client.SearchDashboard, hr, hd, hs, hb, unmarshalRows, hj]⟩⟩⟩⟩
  · intro uid
    refine ⟨fun err hr => by simp [Client.GetDashboard, hr], fun req hr =>
      ⟨fun err hd => by simp [Client.GetDashboard, hr, hd], fun resp hd =>
        ⟨fun hs => ⟨_, get_non200 c codec uid req resp hr hd hs⟩,
          fun hs err hb => by simp [Client.GetDashboard, hr, hd, hs, hb]⟩⟩⟩
  · intro slug
    refine ⟨fun err hr => by simp [Client.Dashboard, hr], fun req hr =>
      ⟨fun err hd => by simp [Client.Dashboard, hr, hd], fun resp hd =>
        ⟨fun hs => ⟨_, legacy_non200 c codec slug req resp hr hd hs⟩,
          fun hs => ⟨fun err hb => by simp [Client.Dashboard, hr, hd, hs, hb],
            fun hb hj => by
              have h1 : c.Dashboard codec slug = Dashboard.finish codec resp.Body.data := by
                simp [Client.Dashboard, hr, hd, hs, hb]
              rw [h1, Dashboard.finish, unmarshalPtr_malformed _ _ _ hj]
              rfl⟩⟩⟩⟩
  · intro uid
    refine ⟨fun err hr => by simp [Client.DeleteDashboard, hr], fun req hr =>
      ⟨fun err hd => by simp [Client.DeleteDashboard, hr, hd], fun resp hd =>
        ⟨fun hs => ⟨_, delete_non200 c uid req resp hr hd hs⟩,
          fun hs => ⟨fun err hb => by simp [Client.DeleteDashboard, hr, hd, hs, hb],
            fun hb hj => by
              simp [Client.DeleteDashboard, hr, hd, hs, hb, DeleteDashboard.finish,
                unmarshalPtr, hj]⟩⟩⟩,
      fun title err h => delete_error_title c uid title err h⟩

/-- Instance of C7 as amended: a transport failure in `GetDashboard` returns the
nil pointer and the transport error, and `DeleteDashboard` on a malformed 200
body returns the empty title and the decode error. -/
theorem error_before_decode_absent_witness :
    (failingClient (Error.external "connection refused")).GetDashboard
        (plainCodec "" : Codec String Unit Unit) "abc123"
      = Go.ret (none, some (Error.external "connection refused")) ∧
    (fixedClient ⟨200, "200 OK", ⟨"<html>", none⟩⟩).DeleteDashboard "abc123"
      = Go.ret ("", some Error.jsonMalformed) :=
  ⟨(((error_before_decode_absent (failingClient (Error.external "connection refused"))
      (plainCodec "")).2.2.2.1 "abc123").2 () rfl).1 (Error.external "connection refused") rfl,
    (((((error_before_decode_absent (fixedClient ⟨200, "200 OK", ⟨"<html>", none⟩⟩)
      (plainCodec "")).2.2.2.2.2 "abc123").2.1 () rfl).2
        ⟨200, "200 OK", ⟨"<html>", none⟩⟩ rfl).2 rfl).2 rfl rfl⟩

/-- Counterexample to C7 as stated: on a 200 response whose body cannot be
decoded, the operations return a non-nil error together with a result that is
neither absent nor zero-valued. `GetDashboard` on the malformed body `<html>`
returns a dashboard carrying the requested uid; `SaveDashboard` and
`NewDashboard` on a body whose `id` is a string return the response with the
fields decoded around the error; `SearchDashboard` on an array whose second
element is not an object returns both rows. -/
theorem decode_error_with_result :
    (fixedClient ⟨200, "200 OK", ⟨"<html>", none⟩⟩).GetDashboard (plainCodec "") "abc123"
      = Go.ret (some (sampleDashboard "abc123" []), some Error.jsonMalformed) ∧
    (fixedClient ⟨200, "200 OK", ⟨"\x7b\"slug\":\"s\",\"id\":\"7\",\"version\":3\x7d", none⟩⟩).SaveDashboard
        (plainCodec "") () true
      = (some ⟨"s", 0, "", "", "", 3⟩, some (Error.jsonType "string" "int64")) ∧
    (fixedClient ⟨200, "200 OK", ⟨"\x7b\"slug\":\"s\",\"id\":\"7\",\"version\":3\x7d", none⟩⟩).NewDashboard
        (plainCodec "") (sampleDashboard "" [])
      = (some ⟨"s", 0, "", "", "", 3⟩, some (Error.jsonType "string" "int64")) ∧
    (fixedClient ⟨200, "200 OK", ⟨"[\x7b\"id\":1,\"title\":\"a\"\x7d,2]", none⟩⟩).SearchDashboard
        "a" "0"
      = (some [⟨1, "", "a", "", "", false, 0, "", ""⟩, Dashboards.zero],
          some (Error.jsonType "number" "gapi.Dashboards")) :=
  ⟨rfl, rfl, rfl, rfl⟩

/-! ### The slice returned by `SearchDashboard` -/

/-- The rows decoded from an array: each element stored into a fresh zero row. -/
theorem decodeRows_fst (js : List Json) (saved : Option Error) :
    (decodeRows js saved).1
      = js.map (fun j =>
          (storeStruct "gapi.Dashboards" Dashboards.setField j Dashboards.zero).1) := by
  induction js generalizing saved with
  | nil => rfl
  | cons j js ih => simp [decodeRows, ih]

/-- The error decoded from an array: the error saved before, or else the first
error of an element. -/
theorem decodeRows_snd (js : List Json) (saved : Option Error) :
    (decodeRows js saved).2
      = saveError saved (js.findSome? (fun j =>
          (storeStruct "gapi.Dashboards" Dashboards.setField j Dashboards.zero).2)) := by
  induction js generalizing saved with
  | nil => cases saved <;> rfl
  | cons j js ih =>
    simp only [decodeRows, ih, List.findSome?]
    cases saved <;>
      cases (storeStruct "gapi.Dashboards" Dashboards.setField j Dashboards.zero).2 <;>
      simp [saveError]

/-- The decoder sets the slice to nil on the literal `null` only. -/
theorem rows_nil_only_null (data : String) (h : (unmarshalRows data (some [])).1 = none) :
    scanJSON data = some Json.null := by
  unfold unmarshalRows at h
  cases hs : scanJSON data with
  | none => simp [hs] at h
  | some j => cases j <;> simp_all

/-- The decoder on an array: one row for each element, and the first error. -/
theorem rows_array (data : String) (elems : List Json)
    (h : scanJSON data = some (Json.arr elems)) :
    unmarshalRows data (some [])
      = (some (elems.map (fun j =>
            (storeStruct "gapi.Dashboards" Dashboards.setField j Dashboards.zero).1)),
          elems.findSome? (fun j =>
            (storeStruct "gapi.Dashboards" Dashboards.setField j Dashboards.zero).2)) := by
  simp only [unmarshalRows, h, decodeRows_fst, decodeRows_snd, saveError]

/-- The decoder on a value that is neither `null` nor an array: a type error, and
the slice as it was. -/
theorem rows_other (data : String) (j : Json) (h : scanJSON data = some j)
    (hn : j ≠ Json.null) (ha : ∀ elems, j ≠ Json.arr elems) :
    ∃ err, unmarshalRows data (some []) = (some [], some err) := by
  cases j with
  | null => exact absurd rfl hn
  | arr elems => exact absurd rfl (ha elems)
  | bool b => exact ⟨Error.jsonType "bool" "[]gapi.Dashboards", by simp [unmarshalRows, h]⟩
  | num n => exact ⟨Error.jsonType "number" "[]gapi.Dashboards", by simp [unmarshalRows, h]⟩
  | str t => exact ⟨Error.jsonType "string" "[]gapi.Dashboards", by simp [unmarshalRows, h]⟩
  | obj ms => exact ⟨Error.jsonType "object" "[]gapi.Dashboards", by simp [unmarshalRows, h]⟩

/-- The result of `SearchDashboard` on a 200 response with a readable body. -/
theorem search_200 {Req : Type} (c : Client Req) (query folderID : String) (req : Req)
    (resp : Response)
    (hr : c.newRequest "GET" "/api/search"
      (some [("type", "dash-db"), ("query", query), ("folderIds", folderID)]) none
        = Except.ok req)
    (hd : c.Do req = Except.ok resp) (hs : resp.StatusCode = 200)
    (hb : resp.Body.err = none) :
    c.SearchDashboard query folderID = unmarshalRows resp.Body.data (some []) := by
  simp [Client.SearchDashboard, hr, hd, hs, hb]

/-- C5, as amended: `SearchDashboard` returns the empty non-nil slice together
with a non-nil error when `newRequest` or `Do` fails, when the status is not
200, when the body of a 200 response cannot be read, when that body is not
well-formed JSON, and when it is a JSON value other than `null` and other than
an array. On a 200 body that is a JSON array it returns a non-nil slice with
one row for each element of the array, in order, each element decoded into a
fresh zero row, together with the first decode error of an element if there is
one; for the empty array (no matches) that is the empty non-nil slice and a nil
error. It returns a nil slice at most on a 200 response whose readable body is
the JSON literal `null`. -/
theorem search_slice_nonnil {Req : Type} (c : Client Req) (query folderID : String) :
    (∀ err, c.newRequest "GET" "/api/search"
        (some [("type", "dash-db"), ("query", query), ("folderIds", folderID)]) none
          = Except.error err →
      c.SearchDashboard query folderID = (some [], some err)) ∧
    (∀ req, c.newRequest "GET" "/api/search"
        (some [("type", "dash-db"), ("query", query), ("folderIds", folderID)]) none
          = Except.ok req →
      (∀ err, c.Do req = Except.error err →
        c.SearchDashboard query folderID = (some [], some err)) ∧
      (∀ resp, c.Do req = Except.ok resp →
        (resp.StatusCode ≠ 200 →
          c.SearchDashboard query folderID = (some [], some (Error.text resp.Status))) ∧
        (resp.StatusCode = 200 →
          (∀ err, resp.Body.err = some err →
            c.SearchDashboard query folderID = (some [], some err)) ∧
          (resp.Body.err = none →
            (scanJSON resp.Body.data = none →
              c.SearchDashboard query folderID = (some [], some Error.jsonMalformed)) ∧
            (scanJSON resp.Body.data = some (Json.arr []) →
              c.SearchDashboard query folderID = (some [], none)) ∧
            (∀ elems, scanJSON resp.Body.data = some (Json.arr elems) →
              c.SearchDashboard query folderID
                = (some (elems.map (fun j =>
                      (storeStruct "gapi.Dashboards" Dashboards.setField j Dashboards.zero).1)),
                    elems.findSome? (fun j =>
                      (storeStruct "gapi.Dashboards" Dashboards.setField j
                        Dashboards.zero).2)) ∧
              ∃ rows, (c.SearchDashboard query folderID).1 = some rows ∧
                rows.length = elems.length) ∧
            (∀ j, scanJSON resp.Body.data = some j → j ≠ Json.null →
              (∀ elems, j ≠ Json.arr elems) →
              ∃ err, c.SearchDashboard query folderID = (some [], some err)))))) ∧
    ((c.SearchDashboard query folderID).1 = none →
      ∃ req resp,
        c.newRequest "GET" "/api/search"
          (some [("type", "dash-db"), ("query", query), ("folderIds", folderID)]) none
            = Except.ok req ∧
        c.Do req = Except.ok resp ∧ resp.StatusCode = 200 ∧ resp.Body.err = none ∧
        scanJSON resp.Body.data = some Json.null) := by
  refine ⟨fun err hr => by simp [Client.SearchDashboard, hr], fun req hr =>
    ⟨fun err hd => by simp [Client.SearchDashboard, hr, hd], fun resp hd =>
      ⟨fun hs => search_non200 c query folderID req resp hr hd hs,
        fun hs => ⟨fun err hb => by simp [Client.SearchDashboard, hr, hd, hs, hb],
          fun hb => ⟨?_, ?_, ?_, ?_⟩⟩⟩⟩, ?_⟩
  · intro hj
    rw [search_200 c query folderID req resp hr hd hs hb]
    simp [unmarshalRows, hj]
  · intro hj
    rw [search_200 c query folderID req resp hr hd hs hb, rows_array _ _ hj]
    rfl
  · intro elems hj
    rw [search_200 c query folderID req resp hr hd hs hb, rows_array _ _ hj]
    exact ⟨rfl, _, rfl, by simp⟩
  · intro j hj hn ha
    rw [search_200 c query folderID req resp hr hd hs hb]
    exact rows_other _ j hj hn ha
  · intro h
    rcases search_cases c query folderID with ⟨e, he⟩ | ⟨req, resp, hr, hd, hs, hb, he⟩
    · rw [he] at h; cases h
    · rw [he] at h
      exact ⟨req, resp, hr, hd, hs, hb, rows_nil_only_null resp.Body.data h⟩

/-- Instance of C5 as amended: no matches (the body `[]`) gives the empty non-nil
slice and a nil error. -/
theorem search_slice_nonnil_witness :
    (fixedClient ⟨200, "200 OK", ⟨"[]", none⟩⟩).SearchDashboard "nothing" "0" = (some [], none) :=
  ((((search_slice_nonnil (fixedClient ⟨200, "200 OK", ⟨"[]", none⟩⟩) "nothing" "0").2.1
    () rfl).2 ⟨200, "200 OK", ⟨"[]", none⟩⟩ rfl).2 rfl).2 rfl |>.2.1 rfl

/-- Counterexample to C5 as stated: on a 200 response with the body `null`
`SearchDashboard` returns the nil slice (and a nil error), and on the error path
of a 200 response with the body `[1]` the returned slice is not empty. -/
theorem search_nil_and_nonempty :
    (fixedClient ⟨200, "200 OK", ⟨"null", none⟩⟩).SearchDashboard "nothing" "0" = (none, none) ∧
    (fixedClient ⟨200, "200 OK", ⟨"[1]", none⟩⟩).SearchDashboard "nothing" "0"
      = (some [Dashboards.zero], some (Error.jsonType "number" "gapi.Dashboards")) :=
  ⟨rfl, rfl⟩

/-! ### `FrontendURL` -/

/-- C8: `FrontendURL` is `/d/`, the uid, `?` and the query string, in which each
value listed under each name contributes its own pair `var-{name}={value}` with
the value URL-encoded, the pairs joined by `&`; with uid `xyz` and the filter
`env: [prod, staging]` it is `/d/xyz?var-env=prod&var-env=staging`. -/
theorem frontendURL_shape {ρ τ : Type} (d : Dashboard ρ τ)
    (dashboardVars : List (String × List String)) :
    d.FrontendURL dashboardVars
      = "/d/" ++ d.Meta.UID ++ "?" ++ "&".intercalate
          (dashboardVars.flatMap
            (fun entry => entry.2.map (fun v => "var-" ++ entry.1 ++ "=" ++ urlEncode v))) ∧
    ({ d with Meta := { d.Meta with UID := "xyz" } } : Dashboard ρ τ).FrontendURL
        [("env", ["prod", "staging"])]
      = "/d/xyz?var-env=prod&var-env=staging" := by
  refine ⟨?_, rfl⟩
  simp only [Dashboard.FrontendURL, dasboardVarsToQueryString, dashboardVarPairs]
  have h1 : ("" : String) ++ "/d" = "/d" := by decide
  have h2 : ("/d/" : String) = "/d" ++ "/" := by decide
  rw [h1, h2]
  simp only [String.append_assoc]

/-! ### The dashboard returned by `GetDashboard` and `Dashboard` -/

/-- A property kept by every member store is kept by the decoding of an object. -/
theorem decodeMembers_inv {α : Type} (P : α → Prop)
    (setField : α → String → Json → α × Option Error) (members : List (String × Json))
    (hstep : ∀ a k v, (k, v) ∈ members → P a → P (setField a k v).1) (a : α)
    (saved : Option Error) (ha : P a) : P (decodeMembers setField members a saved).1 := by
  induction members generalizing a saved with
  | nil => exact ha
  | cons kv ms ih =>
    obtain ⟨k, v⟩ := kv
    simp only [decodeMembers]
    apply ih
    · intro b k2 v2 hmem hb
      exact hstep b k2 v2 (List.mem_cons_of_mem _ hmem) hb
    · exact hstep a k v (List.mem_cons_self _ _) ha

/-- A member whose key is not `folderId` leaves `DashboardMeta.Folder` as it is. -/
theorem meta_setField_folder (m : DashboardMeta) (key : String) (v : Json)
    (h : keyIs key "folderId" = false) : (DashboardMeta.setField m key v).1.Folder = m.Folder := by
  unfold DashboardMeta.setField
  split_ifs <;> simp_all

/-- A member of the body object leaves `Meta.Folder` at 0 when it is not a `meta`
object with a `folderId` member. -/
theorem dashboard_setField_meta_folder {ρ τ : Type}
    (storeModel : Json → DashboardModel ρ τ → DashboardModel ρ τ × Option Error)
    (d : Dashboard ρ τ) (key : String) (v : Json)
    (h : keyIs key "meta" = true → ∀ mm, v = Json.obj mm →
      ∀ k2 v2, (k2, v2) ∈ mm → keyIs k2 "folderId" = false)
    (hd : d.Meta.Folder = 0) : (Dashboard.setField storeModel d key v).1.Meta.Folder = 0 := by
  unfold Dashboard.setField
  by_cases hk : keyIs key "meta" = true
  · simp only [hk, if_true]
    cases v with
    | obj mm =>
      simp only [storeStruct]
      refine decodeMembers_inv (fun m : DashboardMeta => m.Folder = 0) DashboardMeta.setField mm
        ?_ d.Meta none hd
      intro a k2 v2 hmem ha
      show (DashboardMeta.setField a k2 v2).1.Folder = 0
      rw [meta_setField_folder a k2 v2 (h hk mm rfl k2 v2 hmem)]
      exact ha
    | null => simpa [storeStruct] using hd
    | bool b => simpa [storeStruct] using hd
    | num n => simpa [storeStruct] using hd
    | str s => simpa [storeStruct] using hd
    | arr es => simpa [storeStruct] using hd
  · have hk2 : keyIs key "meta" = false := by simpa using hk
    simp only [hk2, Bool.false_eq_true, if_false]
    split_ifs <;> exact hd

/-- The dashboard that `GetDashboard.finish` returns has the requested uid and
its folder copied from the meta block. -/
theorem get_finish_returned {ρ τ μ : Type} [GoZero τ] (codec : Codec ρ τ μ) (uid data : String)
    (d : Dashboard ρ τ) (err : Option Error)
    (h : GetDashboard.finish codec uid data = Go.ret (some d, err)) :
    d.Meta.UID = uid ∧ d.Folder = d.Meta.Folder := by
  unfold GetDashboard.finish at h
  split at h
  · cases h
  · cases h
    exact ⟨rfl, rfl⟩

/-- The dashboard that `Dashboard.finish` returns has its folder copied from the
meta block. -/
theorem legacy_finish_returned {ρ τ μ : Type} [GoZero τ] (codec : Codec ρ τ μ) (data : String)
    (d : Dashboard ρ τ) (err : Option Error)
    (h : Dashboard.finish codec data = Go.ret (some d, err)) : d.Folder = d.Meta.Folder := by
  unfold Dashboard.finish at h
  split at h
  · cases h
  · cases h
    rfl

/-- Every dashboard returned by `GetDashboard` has the requested uid and its
folder copied from the meta block. -/
theorem get_returned {Req ρ τ μ : Type} [GoZero τ] (c : Client Req) (codec : Codec ρ τ μ)
    (uid : String) (d : Dashboard ρ τ) (err : Option Error)
    (h : c.GetDashboard codec uid = Go.ret (some d, err)) :
    d.Meta.UID = uid ∧ d.Folder = d.Meta.Folder := by
  rcases get_cases c codec uid with ⟨e, he⟩ | ⟨req, resp, _, _, _, he⟩
  · rw [he] at h; cases h
  · rw [he] at h
    exact get_finish_returned codec uid resp.Body.data d err h

/-- Every dashboard returned by `Dashboard` has its folder copied from the meta block. -/
theorem legacy_returned {Req ρ τ μ : Type} [GoZero τ] (c : Client Req) (codec : Codec ρ τ μ)
    (slug : String) (d : Dashboard ρ τ) (err : Option Error)
    (h : c.Dashboard codec slug = Go.ret (some d, err)) : d.Folder = d.Meta.Folder := by
  rcases legacy_cases c codec slug with ⟨e, he⟩ | ⟨req, resp, _, _, _, he⟩
  · rw [he] at h; cases h
  · rw [he] at h
    exact legacy_finish_returned codec resp.Body.data d err h

/-- On a body other than the literal `null` the decoder leaves the pointer set. -/
theorem unmarshalPtr_some {α : Type} (store : Json → α → α × Option Error) (data : String)
    (cur : α) (h : scanJSON data ≠ some Json.null) :
    ∃ r err, unmarshalPtr store data cur = (some r, err) := by
  cases hs : scanJSON data with
  | none => exact ⟨cur, _, unmarshalPtr_malformed store data cur hs⟩
  | some j =>
    have hj : j ≠ Json.null := fun hn => h (by rw [hs, hn])
    exact ⟨_, _, unmarshalPtr_value store data cur j hs hj⟩

/-- The result of `GetDashboard` on a 200 response with a readable body. -/
theorem get_200 {Req ρ τ μ : Type} [GoZero τ] (c : Client Req) (codec : Codec ρ τ μ)
    (uid : String) (req : Req) (resp : Response)
    (hr : c.newRequest "GET" ("/api/dashboards/uid/" ++ uid) none none = Except.ok req)
    (hd : c.Do req = Except.ok resp) (h200 : resp.StatusCode = 200)
    (hb : resp.Body.err = none) :
    c.GetDashboard codec uid = GetDashboard.finish codec uid resp.Body.data := by
  simp [Client.GetDashboard, hr, hd, h200, hb]

/-- The result of `Dashboard` on a 200 response with a readable body. -/
theorem legacy_200 {Req ρ τ μ : Type} [GoZero τ] (c : Client Req) (codec : Codec ρ τ μ)
    (slug : String) (req : Req) (resp : Response)
    (hr : c.newRequest "GET" ("/api/dashboards/db/" ++ slug) none none = Except.ok req)
    (hd : c.Do req = Except.ok resp) (h200 : resp.StatusCode = 200)
    (hb : resp.Body.err = none) :
    c.Dashboard codec slug = Dashboard.finish codec resp.Body.data := by
  simp [Client.Dashboard, hr, hd, h200, hb]

/-- C1: on a response with status 200, every dashboard that `GetDashboard(uid)`
returns has `Meta.UID` equal to `uid`, whatever the body holds; a dashboard is
returned whenever the body can be read and is not the JSON literal `null` (on
which the call panics), also when decoding reports an error; and for the body
`{"meta":{"title":"T"},"dashboard":{"title":"T"}}` the returned dashboard has
`Meta.UID == uid`, `Meta.Title == "T"` and `Folder == 0`. -/
theorem getDashboard_uid {Req ρ τ μ : Type} [GoZero τ] (c : Client Req) (codec : Codec ρ τ μ)
    (uid : String) (req : Req) (resp : Response)
    (hr : c.newRequest "GET" ("/api/dashboards/uid/" ++ uid) none none = Except.ok req)
    (hd : c.Do req = Except.ok resp) (h200 : resp.StatusCode = 200) :
    (∀ d err, c.GetDashboard codec uid = Go.ret (some d, err) → d.Meta.UID = uid) ∧
    (resp.Body.err = none → scanJSON resp.Body.data ≠ some Json.null →
      ∃ d err, c.GetDashboard codec uid = Go.ret (some d, err) ∧ d.Meta.UID = uid) ∧
    (resp.Body = ⟨"\x7b\"meta\":\x7b\"title\":\"T\"\x7d,\"dashboard\":\x7b\"title\":\"T\"\x7d\x7d", none⟩ →
      ∃ d err, c.GetDashboard codec uid = Go.ret (some d, err) ∧
        d.Meta.UID = uid ∧ d.Meta.Title = "T" ∧ d.Folder = 0) := by
  refine ⟨fun d err h => (get_returned c codec uid d err h).1, ?_, ?_⟩
  · intro hb hn
    rw [get_200 c codec uid req resp hr hd h200 hb]
    obtain ⟨r, err, hu⟩ := unmarshalPtr_some
      (storeStruct "gapi.Dashboard" (Dashboard.setField codec.storeModel))
      resp.Body.data Dashboard.zero hn
    exact ⟨_, err, by rw [GetDashboard.finish, hu], rfl⟩
  · intro hbody
    have hb : resp.Body.err = none := by rw [hbody]
    rw [get_200 c codec uid req resp hr hd h200 hb, hbody]
    exact ⟨_, _, rfl, rfl, rfl, rfl⟩

/-- Instance of C1: the uid that the body carries is replaced by the requested one. -/
theorem getDashboard_uid_witness :
    (200 : Int) = 200 ∧
    ∃ d err,
      (fixedClient ⟨200, "200 OK",
          ⟨"\x7b\"meta\":\x7b\"uid\":\"from-server\",\"title\":\"T\"\x7d\x7d", none⟩⟩).GetDashboard
        (plainCodec "") "abc123" = Go.ret (some d, err) ∧ d.Meta.UID = "abc123" :=
  ⟨rfl,
    (getDashboard_uid
      (fixedClient ⟨200, "200 OK",
        ⟨"\x7b\"meta\":\x7b\"uid\":\"from-server\",\"title\":\"T\"\x7d\x7d", none⟩⟩)
      (plainCodec "") "abc123" ()
      ⟨200, "200 OK", ⟨"\x7b\"meta\":\x7b\"uid\":\"from-server\",\"title\":\"T\"\x7d\x7d", none⟩⟩
      rfl rfl rfl).2.1 rfl
      (by
        rw [show scanJSON "\x7b\"meta\":\x7b\"uid\":\"from-server\",\"title\":\"T\"\x7d\x7d"
          = some (Json.obj [("meta", Json.obj [("uid", Json.str "from-server"),
              ("title", Json.str "T")])]) from rfl]
        simp)⟩

/-- C2: on a 200 response, every dashboard returned by `GetDashboard` and by the
legacy `Dashboard` has `Folder == Meta.Folder`; a dashboard is returned whenever
the body can be read and is not the JSON literal `null` (on which both calls
panic), and it is the decoded one with `Folder` replaced by the decoded
`Meta.Folder`, whatever the decoder stored for a top-level `folderId`; and
`Meta.Folder` is 0 when the body is an object that carries no `folderId` inside a
`meta` object. -/
theorem folder_from_meta {Req ρ τ μ : Type} [GoZero τ] (c : Client Req) (codec : Codec ρ τ μ)
    (uid slug : String) (reqG reqD : Req) (resp : Response)
    (hrG : c.newRequest "GET" ("/api/dashboards/uid/" ++ uid) none none = Except.ok reqG)
    (hdG : c.Do reqG = Except.ok resp)
    (hrD : c.newRequest "GET" ("/api/dashboards/db/" ++ slug) none none = Except.ok reqD)
    (hdD : c.Do reqD = Except.ok resp) (h200 : resp.StatusCode = 200) :
    (∀ d err, c.GetDashboard codec uid = Go.ret (some d, err) → d.Folder = d.Meta.Folder) ∧
    (∀ d err, c.Dashboard codec slug = Go.ret (some d, err) → d.Folder = d.Meta.Folder) ∧
    (resp.Body.err = none → scanJSON resp.Body.data ≠ some Json.null →
      ∃ r err,
        unmarshalPtr (storeStruct "gapi.Dashboard" (Dashboard.setField codec.storeModel))
          resp.Body.data Dashboard.zero = (some r, err) ∧
        c.GetDashboard codec uid
          = Go.ret (some { r with Folder := r.Meta.Folder, Meta := { r.Meta with UID := uid } },
              err) ∧
        c.Dashboard codec slug = Go.ret (some { r with Folder := r.Meta.Folder }, err) ∧
        (∀ members, scanJSON resp.Body.data = some (Json.obj members) →
          (∀ k v, (k, v) ∈ members → keyIs k "meta" = true → ∀ mm, v = Json.obj mm →
            ∀ k2 v2, (k2, v2) ∈ mm → keyIs k2 "folderId" = false) →
          r.Meta.Folder = 0)) := by
  refine ⟨fun d err h => (get_returned c codec uid d err h).2,
    fun d err h => legacy_returned c codec slug d err h, ?_⟩
  intro hb hn
  obtain ⟨r, err, hu⟩ := unmarshalPtr_some
    (storeStruct "gapi.Dashboard" (Dashboard.setField codec.storeModel))
    resp.Body.data Dashboard.zero hn
  refine ⟨r, err, hu, ?_, ?_, ?_⟩
  · rw [get_200 c codec uid reqG resp hrG hdG h200 hb, GetDashboard.finish, hu]
  · rw [legacy_200 c codec slug reqD resp hrD hdD h200 hb, Dashboard.finish, hu]
  · intro members hs homit
    have hv := unmarshalPtr_value
      (storeStruct "gapi.Dashboard" (Dashboard.setField codec.storeModel))
      resp.Body.data Dashboard.zero (Json.obj members) hs (by simp)
    rw [hu] at hv
    have hr : r = (storeStruct "gapi.Dashboard" (Dashboard.setField codec.storeModel)
        (Json.obj members) Dashboard.zero).1 := by
      have := congrArg Prod.fst hv
      simpa using this
    rw [hr]
    simp only [storeStruct]
    refine decodeMembers_inv (fun d : Dashboard ρ τ => d.Meta.Folder = 0)
      (Dashboard.setField codec.storeModel) members ?_ Dashboard.zero none rfl
    intro a k v hmem ha
    exact dashboard_setField_meta_folder codec.storeModel a k v (homit k v hmem) ha

/-- Instance of C2: the body carries the top-level `folderId` 7 and the
`meta.folderId` 3; both operations return the folder 3. -/
theorem folder_from_meta_witness :
    (200 : Int) = 200 ∧
    (fixedClient ⟨200, "200 OK",
        ⟨"\x7b\"folderId\":7,\"meta\":\x7b\"folderId\":3\x7d\x7d", none⟩⟩).Dashboard
      (plainCodec "") "my-slug"
      = Go.ret (some { (Dashboard.zero : Dashboard String Unit) with
          Folder := 3, Meta := { DashboardMeta.zero with Folder := 3 } }, none) ∧
    ∀ d err,
      (fixedClient ⟨200, "200 OK",
          ⟨"\x7b\"folderId\":7,\"meta\":\x7b\"folderId\":3\x7d\x7d", none⟩⟩).Dashboard
        (plainCodec "") "my-slug" = Go.ret (some d, err) → d.Folder = d.Meta.Folder :=
  ⟨rfl, rfl,
    (folder_from_meta
      (fixedClient ⟨200, "200 OK",
        ⟨"\x7b\"folderId\":7,\"meta\":\x7b\"folderId\":3\x7d\x7d", none⟩⟩)
      (plainCodec "") "abc123" "my-slug" () ()
      ⟨200, "200 OK", ⟨"\x7b\"folderId\":7,\"meta\":\x7b\"folderId\":3\x7d\x7d", none⟩⟩
      rfl rfl rfl rfl rfl).2.1⟩

end Gapi
